import Mathlib

/-!
The storage layer of gizlinebot: a shallow embedding of `storage/storageSql.go`.

The Go file is a set of methods on `Sql`, each of which sends one or a few SQL
statements to a MySQL database through `database/sql`.  The embedding has three
layers:

* the relational state (`Db`): one list of rows per table named in the SQL text;
* the driver (`World`, `driverCall`, `Prepare`, `Exec`, `scanRows`): every call
  into `database/sql` that can report an error consumes one entry of a fault
  schedule, so that each `if err != nil` branch of the source is reachable;
* the methods themselves, one Lean function per Go method, same name.

Modelling conventions for what lies outside the Go file:

* a statement that reports an error has not modified any table;
* string comparison in SQL is exact equality (binary collation), columns are
  `NOT NULL`, and no foreign key is enforced by the engine;
* the order in which the engine hands out rows that the SQL text leaves
  unordered (no `ORDER BY`, or ties under `ORDER BY`) is a parameter (`Engine`);
* the clock reading `time.Now().UTC().Unix()` is the parameter `now`.

Embedded are the methods that the statements below are about, and
`MarkProfileBotSurveyInited` and `GetUserProfile`; `NewSql`, `Close`,
`GetQuestions` and `GetGpsAnswerData` are left out.
-/

set_option linter.dupNamespace false

namespace Storage

/-! ## Machine integers -/

/-- Go conversion `int32(x)` of an integer: keep the low 32 bits, read as two's complement. -/
def int32 (t : Int) : Int := (t + 2147483648) % 4294967296 - 2147483648

/-- Wrap-around of `int64` arithmetic: keep the low 64 bits, read as two's complement. -/
def int64 (t : Int) : Int := (t + 9223372036854775808) % 18446744073709551616 - 9223372036854775808

/-! ## Errors -/

/-- A Go `error` value, by dynamic type: `*mysql.MySQLError` (with its `Number`),
the sentinel `sql.ErrNoRows`, or a value of any other type (a lost connection,
a template error, ...). -/
inductive GoError where
  | mysqlError (number : Nat) (message : String)
  | errNoRows
  | other (message : String)
deriving DecidableEq

/-- How a call of a Go function with result type `error` ends: it returns (nil
or an error) or it panics. -/
inductive Outcome where
  | returned (err : Option GoError)
  | panicked
deriving DecidableEq

/-! ## Tables -/

/-- Modelled from the spec: a row of `linebot_raw_events`; the schema file is not
part of the source, the columns are the ones the INSERT statement names. -/
structure RawEventRow where
  eventtype : String
  rawevent : String
  timestamp : Int
deriving DecidableEq

/-- Modelled from the spec: a row of `user_profiles` (schema file missing); `id` is
selected by `GetGpsAnswerData`, `bot_survey_inited` by `GetUsersWithoutAnswers`,
`userId` carries the unique key. -/
structure ProfileRow where
  id : Nat
  userId : String
  displayName : String
  timestamp : Int
  bot_survey_inited : Int
deriving DecidableEq

/-- Modelled from the spec: a row of `answers` (schema file missing). -/
structure AnswerRow where
  id : Nat
  userId : String
  questionId : String
  answer : String
  channel : String
  timestamp : Int
deriving DecidableEq

/-- Modelled from the spec: a row of `answers_gps` (schema file missing); the two
coordinates are only stored and read back, never computed with. -/
structure AnswerGpsRow where
  id : Nat
  userId : String
  address : String
  lat : Rat
  lon : Rat
  channel : String
  timestamp : Int
deriving DecidableEq

/-- Modelled from the spec: a row of `questions` (schema file missing). -/
structure QuestionRow where
  id : String
  question : String
  weight : Int
  channel : String
deriving DecidableEq

/-- Modelled from the spec: a row of `welcome_msgs` (schema file missing). -/
structure WelcomeMsgRow where
  msg : String
  weight : Int
  channel : String
deriving DecidableEq

/-- The relational state: the six tables the SQL text of the file refers to. -/
structure Db where
  linebot_raw_events : List RawEventRow
  user_profiles : List ProfileRow
  answers : List AnswerRow
  answers_gps : List AnswerGpsRow
  questions : List QuestionRow
  welcome_msgs : List WelcomeMsgRow
deriving DecidableEq

/-- Modelled from the spec: the value an auto-increment `id` column receives on
insert (schema file missing): one more than the largest id in the table. -/
def nextId (ids : List Nat) : Nat := ids.foldr max 0 + 1

/-- The unique key on `user_profiles.userId`. -/
def UniqueProfiles (db : Db) : Prop := (db.user_profiles.map (fun p => p.userId)).Nodup

instance (db : Db) : Decidable (UniqueProfiles db) := by
  unfold UniqueProfiles; infer_instance

/-! ## SQL statements, as functions of the relational state -/

/-- `INSERT INTO linebot_raw_events(eventtype, rawevent, timestamp) VALUES(?, ?, ?)`. -/
def insertRawEvent (eventtype rawevent : String) (timestamp : Int) (db : Db) : Except GoError Db :=
  let row : RawEventRow := ⟨eventtype, rawevent, timestamp⟩
  .ok { db with linebot_raw_events := db.linebot_raw_events ++ [row] }

/-- `INSERT INTO user_profiles(userId, displayName, timestamp) VALUES(?, ?, ?)`: the
unique key rejects a second row for the same userId with MySQL error 1062;
`bot_survey_inited` takes its default 0. -/
def insertProfile (userId displayName : String) (timestamp : Int) (db : Db) : Except GoError Db :=
  if db.user_profiles.any (fun p => p.userId = userId) then
    .error (.mysqlError 1062 "Duplicate entry for key userId")
  else
    let row : ProfileRow :=
      ⟨nextId (db.user_profiles.map (fun p => p.id)), userId, displayName, timestamp, 0⟩
    .ok { db with user_profiles := db.user_profiles ++ [row] }

/-- `UPDATE user_profiles SET bot_survey_inited = 1 WHERE userId = ?`. -/
def updateSurveyInited (userId : String) (db : Db) : Except GoError Db :=
  let mark : ProfileRow → ProfileRow :=
    fun p => if p.userId = userId then { p with bot_survey_inited := 1 } else p
  .ok { db with user_profiles := db.user_profiles.map mark }

/-- `INSERT INTO answers(userId, questionId, answer, channel, timestamp) VALUES(?, ?, ?, ?, ?)`. -/
def insertAnswer (userId questionId answer channel : String) (timestamp : Int) (db : Db) :
    Except GoError Db :=
  let row : AnswerRow :=
    ⟨nextId (db.answers.map (fun a => a.id)), userId, questionId, answer, channel, timestamp⟩
  .ok { db with answers := db.answers ++ [row] }

/-- `INSERT INTO answers_gps(userId, lat, lon, address, channel, timestamp) VALUES(?, ?, ?, ?, ?, ?)`. -/
def insertAnswerGps (userId : String) (lat lon : Rat) (address channel : String) (timestamp : Int)
    (db : Db) : Except GoError Db :=
  let row : AnswerGpsRow :=
    ⟨nextId (db.answers_gps.map (fun a => a.id)), userId, address, lat, lon, channel, timestamp⟩
  .ok { db with answers_gps := db.answers_gps ++ [row] }

/-- `DELETE FROM <table> WHERE userId = ?` with the table name spliced into the
text: the three tables with a `userId` column lose the matching rows; the other
tables have no such column (MySQL error 1054); any other name is no table
(MySQL error 1146). -/
def deleteWhereUserId (table userId : String) (db : Db) : Except GoError Db :=
  if table = "user_profiles" then
    .ok { db with user_profiles := db.user_profiles.filter (fun p => p.userId ≠ userId) }
  else if table = "answers" then
    .ok { db with answers := db.answers.filter (fun a => a.userId ≠ userId) }
  else if table = "answers_gps" then
    .ok { db with answers_gps := db.answers_gps.filter (fun a => a.userId ≠ userId) }
  else if table = "linebot_raw_events" ∨ table = "questions" ∨ table = "welcome_msgs" then
    .error (.mysqlError 1054 "Unknown column userId in where clause")
  else
    .error (.mysqlError 1146 "Table does not exist")

/-! ## The driver -/

/-- The store as a method sees it: the tables, and the schedule of driver faults;
entry k of the schedule is the fate of the k-th call into the driver whose error
the methods inspect, from now on
(`none`, or no entry: the call goes through; `some e`: it reports `e`). -/
structure World where
  db : Db
  faults : List (Option GoError)
deriving DecidableEq

/-- One call into the driver: consume the next entry of the fault schedule. -/
def driverCall (w : World) : Option GoError × World :=
  match w.faults with
  | [] => (none, w)
  | f :: rest => (f, { w with faults := rest })

/-- No call into the driver reports a fault from now on. -/
def Quiet (w : World) : Prop := ∀ f ∈ w.faults, f = none

instance (w : World) : Decidable (Quiet w) := by
  unfold Quiet; infer_instance

/-- The verdict of the server on the text `DELETE FROM <table> WHERE userId = ?`:
accepted for the three tables with a `userId` column, MySQL error 1054 for the
tables without one, MySQL error 1146 for a name that is no table. -/
def deleteTextError (table : String) : Option GoError :=
  match deleteWhereUserId table "" ⟨[], [], [], [], [], []⟩ with
  | .error e => some e
  | .ok _ => none

/-- `s.Db.Prepare(q)`: fails on a driver fault, or when the server rejects the
statement text (`rejected`; `none` for the constant statements of the file). -/
def Prepare (w : World) (rejected : Option GoError) : Option GoError × World :=
  match driverCall w with
  | (some e, w1) => (some e, w1)
  | (none, w1) => (rejected, w1)

/-- `stmt.Exec(args...)`: fails on a driver fault or when the statement is
rejected, and then changes no table; otherwise applies the statement. -/
def Exec (w : World) (stmt : Db → Except GoError Db) : Option GoError × World :=
  match driverCall w with
  | (some e, w1) => (some e, w1)
  | (none, w1) =>
    match stmt w1.db with
    | .error e => (some e, w1)
    | .ok db => (none, { w1 with db := db })

/-- The loop `for rows.Next() { err := rows.Scan(...); if err != nil { return acc, err }; body }`
followed by `err = rows.Err()`: `rows.Next()` and `rows.Scan` are driver calls;
a fault in `Next` ends the loop and is what `rows.Err()` then reports; a fault
in `Scan`, or an error of the body, returns at once with what was accumulated. -/
def scanRows {ρ β : Type} (body : β → ρ → Except GoError β) :
    List ρ → β → World → (β × Option GoError) × World
  | [], acc, w =>
    match driverCall w with
    | (some e, w1) => ((acc, some e), w1)
    | (none, w1) => ((acc, none), w1)
  | r :: rs, acc, w =>
    match driverCall w with
    | (some e, w1) => ((acc, some e), w1)
    | (none, w1) =>
      match driverCall w1 with
      | (some e, w2) => ((acc, some e), w2)
      | (none, w2) =>
        match body acc r with
        | .error e => ((acc, some e), w2)
        | .ok acc2 => scanRows body rs acc2 w2

/-- The freedom SQL leaves to the engine: the order in which the rows of a
FROM clause are produced. Any reordering that depends on the rows only through
their number is allowed; ties under ORDER BY are left in this order. -/
structure Engine where
  scan : {α : Type} → List α → List α
  scan_perm : ∀ {α : Type} (l : List α), List.Perm (scan l) l

/-- The engine that produces rows in table order. -/
def tableOrder : Engine := ⟨fun l => l, fun l => List.Perm.refl l⟩

/-- The engine that produces rows in reverse table order. -/
def reverseOrder : Engine := ⟨fun l => l.reverse, fun l => List.reverse_perm l⟩

/-! ## Types of the `domain` package and of the file -/

/-- Modelled from the spec: `domain.Answer` (the `domain` package is not part of
the source); the fields are the ones the file reads and writes; `Timestamp` is a
`time.Time`, held as its unix seconds. -/
structure Answer where
  Id : Nat
  UserId : String
  QuestionId : String
  Answer : String
  Channel : String
  Timestamp : Int
deriving DecidableEq

/-- Unix seconds of the zero `time.Time` (January 1, year 1, 00:00 UTC). -/
def zeroTime : Int := -62135596800

/-- The zero value of `domain.Answer` (`var emptyAnswer domain.Answer`). -/
def emptyAnswer : Answer := ⟨0, "", "", "", "", zeroTime⟩

/-- Modelled from the spec: `domain.AnswerGps` (the `domain` package is not part of
the source); the fields are the ones `UserAddGpsAnswer` reads. -/
structure AnswerGps where
  UserId : String
  Lat : Rat
  Lon : Rat
  Address : String
  Channel : String
deriving DecidableEq

/-- Modelled from the spec: `domain.UserProfile` (the `domain` package is not part of
the source); the fields are the ones `GetUserProfile` fills. -/
structure UserProfile where
  UserId : String
  DisplayName : String
  Timestamp : Int
deriving DecidableEq

/-- The struct `WelcomeMsgTplVars`. -/
structure WelcomeMsgTplVars where
  UserId : String
  Hostname : String
deriving DecidableEq

/-- The struct `UserAnswerData`. -/
structure UserAnswerData where
  Id : Nat
  UserId : String
  QuestionId : String
  Answer : String
  Channel : String
  Timestamp : Int
deriving DecidableEq

/-- The package `html/template`, as far as the file uses it: `Parse` turns a text
into a template or fails; a template is held as what `Execute` does with it, which
writes a string for the variables (a pointer, possibly nil) or fails. -/
structure TemplateLib where
  Parse : String → Except GoError (Option WelcomeMsgTplVars → Except GoError String)

/-! ## Queries -/

/-- `user_profiles p LEFT JOIN answers a ON a.userId = p.userId`: every profile
with each of its answers, or once with NULL when it has none. -/
def leftJoinAnswers (ps : List ProfileRow) (as : List AnswerRow) :
    List (ProfileRow × Option AnswerRow) :=
  ps.flatMap (fun p =>
    match as.filter (fun a => a.userId = p.userId) with
    | [] => [(p, none)]
    | m :: ms => (m :: ms).map (fun a => (p, some a)))

/-- `ORDER BY timestamp DESC` on `answers`: `a` may precede `b`. -/
def tsDesc (a b : AnswerRow) : Prop := b.timestamp ≤ a.timestamp

instance : DecidableRel tsDesc := fun a b => by unfold tsDesc; infer_instance

instance : IsTotal AnswerRow tsDesc := ⟨fun a b => by unfold tsDesc; omega⟩

instance : IsTrans AnswerRow tsDesc := ⟨fun a b c h1 h2 => by unfold tsDesc at *; omega⟩

/-- `ORDER BY weight ASC` on `welcome_msgs`: `a` may precede `b`. -/
def weightAsc (a b : WelcomeMsgRow) : Prop := a.weight ≤ b.weight

instance : DecidableRel weightAsc := fun a b => by unfold weightAsc; infer_instance

instance : IsTotal WelcomeMsgRow weightAsc := ⟨fun a b => by unfold weightAsc; omega⟩

instance : IsTrans WelcomeMsgRow weightAsc := ⟨fun a b c h1 h2 => by unfold weightAsc at *; omega⟩

/-- Ascending order of a nullable integer key in MySQL: NULL sorts before every value. -/
def nullsFirst : Option Int → Option Int → Prop
  | none, _ => True
  | some _, none => False
  | some x, some y => x ≤ y

instance : DecidableRel nullsFirst := fun a b => by
  cases a <;> cases b <;> unfold nullsFirst <;> infer_instance

/-- `ORDER BY a.timestamp ASC` on the joined rows: `r` may precede `s`. -/
def joinTsAsc (r s : ProfileRow × Option AnswerRow) : Prop :=
  nullsFirst (r.2.map (fun a => a.timestamp)) (s.2.map (fun a => a.timestamp))

instance : DecidableRel joinTsAsc := fun r s => by unfold joinTsAsc; infer_instance

instance : IsTotal (ProfileRow × Option AnswerRow) joinTsAsc :=
  ⟨fun r s => by
    rcases r with ⟨p, _ | x⟩ <;> rcases s with ⟨q, _ | y⟩ <;>
      simp [joinTsAsc, nullsFirst]
    omega⟩

instance : IsTrans (ProfileRow × Option AnswerRow) joinTsAsc :=
  ⟨fun r s t => by
    rcases r with ⟨p, _ | x⟩ <;> rcases s with ⟨q, _ | y⟩ <;> rcases t with ⟨u, _ | z⟩ <;>
      simp [joinTsAsc, nullsFirst]
    omega⟩

/-- The rows of the query of `GetUsersWithoutAnswers`:
`SELECT p.userId FROM user_profiles p LEFT JOIN answers a ON a.userId = p.userId
WHERE a.userId IS NULL AND p.bot_survey_inited = 0 AND p.timestamp < ?`. -/
def selectUsersWithoutAnswers (eng : Engine) (db : Db) (tsCompare : Int) : List String :=
  ((eng.scan (leftJoinAnswers db.user_profiles db.answers)).filter
    (fun r => r.2 = none ∧ r.1.bot_survey_inited = 0 ∧ r.1.timestamp < tsCompare)).map
    (fun r => r.1.userId)

/-- The value of `SELECT count(id) FROM answers WHERE userId = ?`. -/
def countAnswers (db : Db) (userId : String) : Nat :=
  (db.answers.filter (fun a => a.userId = userId)).length

/-- The rows of the query of `UserGetLastAnswer`:
`SELECT id, userId, questionId, answer, timestamp FROM answers
WHERE userId = ? AND answer != "" ORDER BY timestamp DESC LIMIT 0,1`. -/
def selectLastAnswer (eng : Engine) (db : Db) (uid : String) : List AnswerRow :=
  (((List.insertionSort tsDesc
    ((eng.scan db.answers).filter (fun a => a.userId = uid ∧ a.answer ≠ ""))).drop 0).take 1)

/-- The rows of the query of `GetWelcomeMsgs`:
`SELECT msg FROM welcome_msgs WHERE channel IN ("line", "both") ORDER BY weight ASC`. -/
def selectWelcomeMsgs (eng : Engine) (db : Db) : List String :=
  (List.insertionSort weightAsc
    ((eng.scan db.welcome_msgs).filter (fun m => m.channel = "line" ∨ m.channel = "both"))).map
    (fun m => m.msg)

/-- The rows of the query of `GetUserAnswerData`:
`SELECT p.userId, IFNULL(a.questionId, ""), IFNULL(a.answer, ""), IFNULL(a.channel, ""),
IFNULL(a.timestamp, 0) FROM user_profiles p LEFT JOIN answers a ON a.userId = p.userId
ORDER BY a.timestamp ASC`. -/
def selectUserAnswerData (eng : Engine) (db : Db) :
    List (String × String × String × String × Int) :=
  (List.insertionSort joinTsAsc (eng.scan (leftJoinAnswers db.user_profiles db.answers))).map
    (fun r => (r.1.userId, (r.2.map (fun a => a.questionId)).getD "",
      (r.2.map (fun a => a.answer)).getD "", (r.2.map (fun a => a.channel)).getD "",
      (r.2.map (fun a => a.timestamp)).getD 0))

/-- The row, if any, of the query of `GetUserProfile`:
`SELECT displayName, timestamp FROM user_profiles where userId = ?`. -/
def selectProfile (eng : Engine) (db : Db) (userId : String) : List (String × Int) :=
  (((eng.scan db.user_profiles).filter (fun p => p.userId = userId)).map
    (fun p => (p.displayName, p.timestamp))).take 1

/-! ## The methods of `Sql` -/

/-- Method `AddRawLineEvent`. -/
def AddRawLineEvent (w : World) (now : Int) (eventType rawevent : String) :
    Option GoError × World :=
  match Prepare w none with
  | (some err, w1) => (some err, w1)
  | (none, w1) =>
    match Exec w1 (insertRawEvent eventType rawevent (int32 now)) with
    | (some err, w2) => (some err, w2)
    | (none, w2) => (none, w2)

/-- Method `AddUserProfile`. After a failed `Exec` the error is asserted to be a
`*mysql.MySQLError` with the one-result form `err.(*mysql.MySQLError)`, which
panics on an error of any other dynamic type. -/
def AddUserProfile (w : World) (now : Int) (userID displayName : String) : Outcome × World :=
  match Prepare w none with
  | (some err, w1) => (.returned (some err), w1)
  | (none, w1) =>
    match Exec w1 (insertProfile userID displayName (int32 now)) with
    | (some err, w2) =>
      match err with
      | .mysqlError number _ =>
        if number = 1062 then (.returned none, w2) else (.returned (some err), w2)
      | _ => (.panicked, w2)
    | (none, w2) => (.returned none, w2)

/-- Method `MarkProfileBotSurveyInited`. -/
def MarkProfileBotSurveyInited (w : World) (userId : String) : Option GoError × World :=
  match Prepare w none with
  | (some err, w1) => (some err, w1)
  | (none, w1) =>
    match Exec w1 (updateSurveyInited userId) with
    | (some err, w2) => (some err, w2)
    | (none, w2) => (none, w2)

/-- Method `GetUsersWithoutAnswers`; `tsCompare` is an `int64` difference. -/
def GetUsersWithoutAnswers (eng : Engine) (w : World) (now delaySecs : Int) :
    (List String × Option GoError) × World :=
  let tsCompare := int64 (now - delaySecs)
  match driverCall w with
  | (some err, w1) => (([], some err), w1)
  | (none, w1) =>
    scanRows (fun userIds userId => .ok (userIds ++ [userId]))
      (selectUsersWithoutAnswers eng w1.db tsCompare) [] w1

/-- Method `GetUserProfile`: `sql.ErrNoRows` is turned into the zero profile and nil. -/
def GetUserProfile (eng : Engine) (w : World) (userId : String) :
    (UserProfile × Option GoError) × World :=
  match driverCall w with
  | (some err, w1) =>
    if err = .errNoRows then ((⟨"", "", 0⟩, none), w1) else ((⟨"", "", 0⟩, some err), w1)
  | (none, w1) =>
    match selectProfile eng w1.db userId with
    | [] => ((⟨"", "", 0⟩, none), w1)
    | (displayName, timestamp) :: _ => ((⟨userId, displayName, timestamp⟩, none), w1)

/-- Method `UserHasAnswers`. -/
def UserHasAnswers (w : World) (userId : String) : (Bool × Option GoError) × World :=
  match driverCall w with
  | (some err, w1) => ((false, some err), w1)
  | (none, w1) =>
    let hasAnswers := countAnswers w1.db userId
    if hasAnswers > 0 then ((true, none), w1) else ((false, none), w1)

/-- Method `UserGetLastAnswer`: `QueryRow(...).Scan` reports a driver fault, or
`sql.ErrNoRows` when the query has no row; the `Channel` field is never assigned. -/
def UserGetLastAnswer (eng : Engine) (w : World) (uid : String) :
    (Answer × Option GoError) × World :=
  match driverCall w with
  | (some err, w1) => ((emptyAnswer, some err), w1)
  | (none, w1) =>
    match selectLastAnswer eng w1.db uid with
    | [] => ((emptyAnswer, some .errNoRows), w1)
    | r :: _ => ((⟨r.id, r.userId, r.questionId, r.answer, "", r.timestamp⟩, none), w1)

/-- Method `applyWelcomeTpl`. -/
def applyWelcomeTpl (tpl : TemplateLib) (msg : String) (tplVars : Option WelcomeMsgTplVars) :
    String × Option GoError :=
  match tpl.Parse msg with
  | .error err => ("", some err)
  | .ok tmpl =>
    match tmpl tplVars with
    | .error err => ("", some err)
    | .ok buf => (buf, none)

/-- Method `GetWelcomeMsgs`. -/
def GetWelcomeMsgs (tpl : TemplateLib) (eng : Engine) (w : World)
    (tplVars : Option WelcomeMsgTplVars) : (List String × Option GoError) × World :=
  match driverCall w with
  | (some err, w1) => (([], some err), w1)
  | (none, w1) =>
    scanRows (fun msgs msgRaw =>
        match applyWelcomeTpl tpl msgRaw tplVars with
        | (_, some err) => .error err
        | (msg, none) => .ok (msgs ++ [msg]))
      (selectWelcomeMsgs eng w1.db) [] w1

/-- What `GetUserAnswerData` returns for one joined row: the selected columns with
their IFNULL defaults, `Id` left at zero. -/
def userAnswerDataOf (r : ProfileRow × Option AnswerRow) : UserAnswerData :=
  ⟨0, r.1.userId, (r.2.map (fun a => a.questionId)).getD "", (r.2.map (fun a => a.answer)).getD "",
    (r.2.map (fun a => a.channel)).getD "", (r.2.map (fun a => a.timestamp)).getD 0⟩

/-- Method `GetUserAnswerData`. -/
def GetUserAnswerData (eng : Engine) (w : World) :
    (List UserAnswerData × Option GoError) × World :=
  match driverCall w with
  | (some err, w1) => (([], some err), w1)
  | (none, w1) =>
    scanRows (fun answerData r =>
        .ok (answerData ++ [⟨0, r.1, r.2.1, r.2.2.1, r.2.2.2.1, r.2.2.2.2⟩]))
      (selectUserAnswerData eng w1.db) [] w1

/-- Method `UserAddAnswer`: the `Timestamp` and `Id` fields of the argument are not read. -/
def UserAddAnswer (w : World) (now : Int) (answer : Answer) : Option GoError × World :=
  match Prepare w none with
  | (some err, w1) => (some err, w1)
  | (none, w1) =>
    match Exec w1 (insertAnswer answer.UserId answer.QuestionId answer.Answer answer.Channel
        (int32 now)) with
    | (some err, w2) => (some err, w2)
    | (none, w2) => (none, w2)

/-- Method `deleteFromTableUserId`. -/
def deleteFromTableUserId (w : World) (table userId : String) : Option GoError × World :=
  match Prepare w (deleteTextError table) with
  | (some err, w1) => (some err, w1)
  | (none, w1) =>
    match Exec w1 (deleteWhereUserId table userId) with
    | (some err, w2) => (some err, w2)
    | (none, w2) => (none, w2)

/-- The loop of `WipeUser` over the remaining table names. -/
def wipeLoop : List String → World → String → Option GoError × World
  | [], w, _ => (none, w)
  | table :: rest, w, userId =>
    match deleteFromTableUserId w table userId with
    | (some err, w1) => (some err, w1)
    | (none, w1) => wipeLoop rest w1 userId

/-- Method `WipeUser`. -/
def WipeUser (w : World) (userId : String) : Option GoError × World :=
  wipeLoop ["user_profiles", "answers", "answers_gps"] w userId

/-- Method `UserAddGpsAnswer`. -/
def UserAddGpsAnswer (w : World) (now : Int) (answer : AnswerGps) : Option GoError × World :=
  match Prepare w none with
  | (some err, w1) => (some err, w1)
  | (none, w1) =>
    match Exec w1 (insertAnswerGps answer.UserId answer.Lat answer.Lon answer.Address
        answer.Channel (int32 now)) with
    | (some err, w2) => (some err, w2)
    | (none, w2) => (none, w2)

/-! ## Example stores -/

/-- The store without any row and without driver faults. -/
def emptyWorld : World := ⟨⟨[], [], [], [], [], []⟩, []⟩

/-- A store in which the user u1 already has a profile, created at second 5 under
the display name old. -/
def oldProfileWorld : World := ⟨⟨[], [⟨1, "u1", "old", 5, 0⟩], [], [], [], []⟩, []⟩

/-- A schedule on which `Prepare` goes through and `Exec` reports an error that
is not a `*mysql.MySQLError` (the connection is gone). -/
def lostConnectionWorld : World := ⟨⟨[], [], [], [], [], []⟩, [none, some (.other "invalid connection")]⟩

/-- A small store: three profiles, answers and a position of u2, a raw event
that mentions u2, one question and three welcome messages. -/
def sampleDb : Db :=
  ⟨[⟨"follow", "source u2", 4⟩],
   [⟨1, "u1", "Ann", 5, 0⟩, ⟨2, "u2", "Bob", 6, 0⟩, ⟨3, "u3", "Cy", 7, 1⟩],
   [⟨1, "u2", "q1", "", "line", 50⟩, ⟨2, "u2", "q2", "yes", "line", 50⟩,
    ⟨3, "u2", "q0", "no", "line", 40⟩],
   [⟨1, "u2", "Main St", 1, 2, "line", 60⟩, ⟨2, "u1", "Side St", 3, 4, "line", 61⟩],
   [⟨"q1", "How are you?", 1, "both"⟩],
   [⟨"hello", 2, "line"⟩, ⟨"welcome", 1, "both"⟩, ⟨"web only", 0, "web"⟩]⟩

/-- The small store behind a driver that reports no fault. -/
def sampleWorld : World := ⟨sampleDb, []⟩

/-- The small store behind a driver whose fourth call (the `Exec` of the second
delete of `WipeUser`) reports a lost connection. -/
def secondDeleteFails : World := ⟨sampleDb, [none, none, none, some (.other "invalid connection")]⟩

/-- A store where u1 has one earlier answer, written in second 100. -/
def earlierAnswerWorld : World :=
  ⟨⟨[], [⟨1, "u1", "Ann", 5, 0⟩], [⟨1, "u1", "q0", "no", "line", 100⟩], [], [], []⟩, []⟩

/-- A template library for the examples: the text hello does not parse, every
other text renders as itself followed by the user id. -/
def sampleTemplates : TemplateLib :=
  ⟨fun s => if s = "hello" then .error (.other "template: unexpected token")
    else .ok (fun v => .ok (s ++ " " ++ (v.map (fun x => x.UserId)).getD ""))⟩

/-- A store with the profiles of u1 and u2 and no answer yet. -/
def twoProfilesWorld : World :=
  ⟨⟨[], [⟨1, "u1", "Ann", 5, 0⟩, ⟨2, "u2", "Bob", 6, 0⟩], [], [], [], []⟩, []⟩

/-! ## The driver on a quiet schedule -/

theorem driverCall_db (w : World) : (driverCall w).2.db = w.db := by
  rcases w with ⟨db, faults⟩
  cases faults <;> rfl

theorem driverCall_of_quiet (w : World) (h : Quiet w) :
    ∃ w1, driverCall w = (none, w1) ∧ w1.db = w.db ∧ Quiet w1 := by
  rcases w with ⟨db, faults⟩
  cases faults with
  | nil => exact ⟨_, rfl, rfl, h⟩
  | cons f rest =>
    have hf : f = none := h f (List.mem_cons_self _ _)
    subst hf
    exact ⟨⟨db, rest⟩, rfl, rfl, fun g hg => h g (List.mem_cons_of_mem _ hg)⟩

theorem int32_eq_iff (t : Int) : int32 t = t ↔ -2147483648 ≤ t ∧ t < 2147483648 := by
  unfold int32
  omega

/-! ## The insert methods -/

theorem AddRawLineEvent_quiet (w : World) (now : Int) (e r : String) (hq : Quiet w) :
    (AddRawLineEvent w now e r).1 = none ∧ Quiet (AddRawLineEvent w now e r).2 ∧
    (AddRawLineEvent w now e r).2.db =
      { w.db with linebot_raw_events := w.db.linebot_raw_events ++ [⟨e, r, int32 now⟩] } := by
  obtain ⟨w1, h1, hd1, hq1⟩ := driverCall_of_quiet w hq
  obtain ⟨w2, h2, hd2, hq2⟩ := driverCall_of_quiet w1 hq1
  simp [AddRawLineEvent, Prepare, Exec, h1, h2, insertRawEvent, hd1, hd2]
  exact hq2

theorem UserAddAnswer_quiet (w : World) (now : Int) (a : Answer) (hq : Quiet w) :
    (UserAddAnswer w now a).1 = none ∧ Quiet (UserAddAnswer w now a).2 ∧
    (UserAddAnswer w now a).2.db =
      { w.db with answers := w.db.answers ++
          [⟨nextId (w.db.answers.map (fun x => x.id)), a.UserId, a.QuestionId, a.Answer,
            a.Channel, int32 now⟩] } := by
  obtain ⟨w1, h1, hd1, hq1⟩ := driverCall_of_quiet w hq
  obtain ⟨w2, h2, hd2, hq2⟩ := driverCall_of_quiet w1 hq1
  simp [UserAddAnswer, Prepare, Exec, h1, h2, insertAnswer, hd1, hd2]
  exact hq2

theorem UserAddGpsAnswer_quiet (w : World) (now : Int) (a : AnswerGps) (hq : Quiet w) :
    (UserAddGpsAnswer w now a).1 = none ∧ Quiet (UserAddGpsAnswer w now a).2 ∧
    (UserAddGpsAnswer w now a).2.db =
      { w.db with answers_gps := w.db.answers_gps ++
          [⟨nextId (w.db.answers_gps.map (fun x => x.id)), a.UserId, a.Address, a.Lat, a.Lon,
            a.Channel, int32 now⟩] } := by
  obtain ⟨w1, h1, hd1, hq1⟩ := driverCall_of_quiet w hq
  obtain ⟨w2, h2, hd2, hq2⟩ := driverCall_of_quiet w1 hq1
  simp [UserAddGpsAnswer, Prepare, Exec, h1, h2, insertAnswerGps, hd1, hd2]
  exact hq2

theorem UserAddAnswer_ok (w : World) (now : Int) (a : Answer)
    (h : (UserAddAnswer w now a).1 = none) :
    (UserAddAnswer w now a).2.db =
      { w.db with answers := w.db.answers ++
          [⟨nextId (w.db.answers.map (fun x => x.id)), a.UserId, a.QuestionId, a.Answer,
            a.Channel, int32 now⟩] } := by
  rcases w with ⟨db, faults⟩
  rcases faults with _ | ⟨_ | f, _ | ⟨_ | g, rest⟩⟩ <;>
    simp_all [UserAddAnswer, Prepare, Exec, driverCall, insertAnswer]

theorem AddUserProfile_quiet_fresh (w : World) (now : Int) (u d : String) (hq : Quiet w)
    (hfresh : ∀ p ∈ w.db.user_profiles, p.userId ≠ u) :
    (AddUserProfile w now u d).1 = .returned none ∧
    Quiet (AddUserProfile w now u d).2 ∧
    (AddUserProfile w now u d).2.db =
      { w.db with user_profiles := w.db.user_profiles ++
          [⟨nextId (w.db.user_profiles.map (fun p => p.id)), u, d, int32 now, 0⟩] } := by
  obtain ⟨w1, h1, hd1, hq1⟩ := driverCall_of_quiet w hq
  obtain ⟨w2, h2, hd2, hq2⟩ := driverCall_of_quiet w1 hq1
  have hne : ¬ ∃ x ∈ w.db.user_profiles, x.userId = u := by
    rintro ⟨p, hp, hpu⟩
    exact hfresh p hp hpu
  simp [AddUserProfile, Prepare, Exec, h1, h2, insertProfile, hd1, hd2, hne]
  exact hq2

theorem AddUserProfile_quiet_dup (w : World) (now : Int) (u d : String) (hq : Quiet w)
    (hdup : ∃ p ∈ w.db.user_profiles, p.userId = u) :
    (AddUserProfile w now u d).1 = .returned none ∧
    Quiet (AddUserProfile w now u d).2 ∧
    (AddUserProfile w now u d).2.db = w.db := by
  obtain ⟨w1, h1, hd1, hq1⟩ := driverCall_of_quiet w hq
  obtain ⟨w2, h2, hd2, hq2⟩ := driverCall_of_quiet w1 hq1
  simp [AddUserProfile, Prepare, Exec, h1, h2, insertProfile, hd1, hd2, hdup]
  exact hq2

theorem filter_userId_length_one (l : List ProfileRow) (u : String)
    (hn : (l.map (fun p => p.userId)).Nodup) (hex : ∃ p ∈ l, p.userId = u) :
    (l.filter (fun p => p.userId = u)).length = 1 := by
  induction l with
  | nil => simp at hex
  | cons q l ih =>
    simp only [List.map_cons, List.nodup_cons, List.mem_map, not_exists, not_and] at hn
    by_cases hq : q.userId = u
    · have hnone : l.filter (fun p => decide (p.userId = u)) = [] := by
        simp only [List.filter_eq_nil_iff, decide_eq_true_eq]
        intro p hp hpu
        exact hn.1 p hp (hpu.trans hq.symm)
      simp [List.filter_cons, hq, hnone]
    · obtain ⟨p, hp, hpu⟩ := hex
      have hp2 : p ∈ l := by
        rcases List.mem_cons.mp hp with h | h
        · exact absurd (h ▸ hpu) hq
        · exact h
      simp [List.filter_cons, hq, ih hn.2 ⟨p, hp2, hpu⟩]

theorem filter_userId_fresh (l : List ProfileRow) (u : String)
    (hfresh : ∀ p ∈ l, p.userId ≠ u) : l.filter (fun p => p.userId = u) = [] := by
  simp only [List.filter_eq_nil_iff, decide_eq_true_eq]
  exact hfresh

/-! ## Claims on `AddUserProfile` and on the stored timestamp -/

/-- C1 (as stated, refuted): in a store where u1 already has the profile (old, 5),
both calls of AddUserProfile for u1 return nil, yet the one row of u1 afterwards
carries old and 5, not the display name d1 and timestamp of the first call. -/
theorem addUserProfile_twice_existing_row_kept :
    Quiet oldProfileWorld ∧ UniqueProfiles oldProfileWorld.db ∧
    (AddUserProfile oldProfileWorld 100 "u1" "d1").1 = .returned none ∧
    (AddUserProfile (AddUserProfile oldProfileWorld 100 "u1" "d1").2 200 "u1" "d2").1
      = .returned none ∧
    (AddUserProfile (AddUserProfile oldProfileWorld 100 "u1" "d1").2 200 "u1" "d2").2.db.user_profiles
      = [⟨1, "u1", "old", 5, 0⟩] ∧
    ¬ (∀ p ∈ (AddUserProfile (AddUserProfile oldProfileWorld 100 "u1" "d1").2 200 "u1"
          "d2").2.db.user_profiles,
        p.userId = "u1" → p.displayName = "d1" ∧ p.timestamp = int32 100) := by
  decide

/-- C1 (amended): on a store with unique profile userIds and a driver that reports
no fault, AddUserProfile(u, d1) followed by AddUserProfile(u, d2) returns nil both
times, the second call leaves every table as the first call left it, and exactly
one profile row for u remains; that row carries d1 and the first call's int32
timestamp when u had no profile before the first call, and otherwise the store is
the one before the first call (the earlier row is kept). -/
theorem addUserProfile_twice (w : World) (now1 now2 : Int) (u d1 d2 : String)
    (hq : Quiet w) (huniq : UniqueProfiles w.db) :
    (AddUserProfile w now1 u d1).1 = .returned none ∧
    (AddUserProfile (AddUserProfile w now1 u d1).2 now2 u d2).1 = .returned none ∧
    (AddUserProfile (AddUserProfile w now1 u d1).2 now2 u d2).2.db
      = (AddUserProfile w now1 u d1).2.db ∧
    ((AddUserProfile (AddUserProfile w now1 u d1).2 now2 u d2).2.db.user_profiles.filter
      (fun p => p.userId = u)).length = 1 ∧
    ((∀ p ∈ w.db.user_profiles, p.userId ≠ u) →
      (AddUserProfile (AddUserProfile w now1 u d1).2 now2 u d2).2.db.user_profiles.filter
        (fun p => p.userId = u)
        = [⟨nextId (w.db.user_profiles.map (fun p => p.id)), u, d1, int32 now1, 0⟩]) ∧
    ((∃ p ∈ w.db.user_profiles, p.userId = u) →
      (AddUserProfile (AddUserProfile w now1 u d1).2 now2 u d2).2.db = w.db) := by
  by_cases hex : ∃ p ∈ w.db.user_profiles, p.userId = u
  · obtain ⟨r1, q1, e1⟩ := AddUserProfile_quiet_dup w now1 u d1 hq hex
    obtain ⟨r2, -, e2⟩ := AddUserProfile_quiet_dup _ now2 u d2 q1 (by rw [e1]; exact hex)
    refine ⟨r1, r2, e2, ?_, ?_, fun _ => e2.trans e1⟩
    · rw [e2, e1]
      exact filter_userId_length_one _ u huniq hex
    · intro hfresh
      obtain ⟨p, hp, hpu⟩ := hex
      exact absurd hpu (hfresh p hp)
  · have hfresh : ∀ p ∈ w.db.user_profiles, p.userId ≠ u := by
      intro p hp hpu
      exact hex ⟨p, hp, hpu⟩
    obtain ⟨r1, q1, e1⟩ := AddUserProfile_quiet_fresh w now1 u d1 hq hfresh
    have hdup : ∃ p ∈ (AddUserProfile w now1 u d1).2.db.user_profiles, p.userId = u := by
      rw [e1]
      exact ⟨⟨nextId (w.db.user_profiles.map (fun p => p.id)), u, d1, int32 now1, 0⟩,
        by simp, rfl⟩
    obtain ⟨r2, -, e2⟩ := AddUserProfile_quiet_dup _ now2 u d2 q1 hdup
    have hrow : (AddUserProfile (AddUserProfile w now1 u d1).2 now2 u d2).2.db.user_profiles.filter
        (fun p => p.userId = u)
        = [⟨nextId (w.db.user_profiles.map (fun p => p.id)), u, d1, int32 now1, 0⟩] := by
      rw [e2, e1]
      simp [List.filter_append, filter_userId_fresh _ u hfresh]
    refine ⟨r1, r2, e2, ?_, fun _ => hrow, fun h => absurd h hex⟩
    rw [hrow]
    rfl

/-- C1 witness: the amended statement at the empty store, user u1, display names
Ann then Bob, clock readings 100 and 200. -/
theorem addUserProfile_twice_witness :
    Quiet emptyWorld ∧ UniqueProfiles emptyWorld.db ∧
    (AddUserProfile (AddUserProfile emptyWorld 100 "u1" "Ann").2 200 "u1" "Bob").2.db.user_profiles
      = [⟨1, "u1", "Ann", 100, 0⟩] :=
  ⟨by decide, by decide, by
    have h := (addUserProfile_twice emptyWorld 100 200 "u1" "Ann" "Bob" (by decide) (by decide)).2.2.1
    rw [h]
    decide⟩

/-- C2 (code evaluated at the failing input): when `Exec` reports an error that is
not a `*mysql.MySQLError` (any other error value, also `sql.ErrNoRows`), the
one-result type assertion panics: AddUserProfile does not return that error, and
no table is changed. An error that is a `*mysql.MySQLError` is returned unless
its number is 1062. -/
theorem addUserProfile_panics_on_foreign_error (db : Db) (rest : List (Option GoError))
    (now : Int) (u d msg : String) :
    AddUserProfile ⟨db, none :: some (.other msg) :: rest⟩ now u d = (.panicked, ⟨db, rest⟩) ∧
    AddUserProfile ⟨db, none :: some .errNoRows :: rest⟩ now u d = (.panicked, ⟨db, rest⟩) ∧
    (∀ n : Nat, AddUserProfile ⟨db, none :: some (.mysqlError n msg) :: rest⟩ now u d
      = (if n = 1062 then .returned none else .returned (some (.mysqlError n msg)), ⟨db, rest⟩)) ∧
    (AddUserProfile lostConnectionWorld 100 "u1" "Ann").1 = .panicked ∧
    (AddUserProfile lostConnectionWorld 100 "u1" "Ann").1
      ≠ .returned (some (.other "invalid connection")) := by
  refine ⟨rfl, rfl, fun n => ?_, by decide, by decide⟩
  by_cases h : n = 1062 <;> simp [AddUserProfile, Prepare, Exec, driverCall, h]

/-- C10 (as stated, refuted): at the clock reading 2147483648 (2^31) AddRawLineEvent
succeeds and the timestamp of the new row is -2147483648, not the clock reading. -/
theorem addRawLineEvent_timestamp_wraps :
    (AddRawLineEvent emptyWorld 2147483648 "message" "raw").1 = none ∧
    (AddRawLineEvent emptyWorld 2147483648 "message" "raw").2.db.linebot_raw_events
      = [⟨"message", "raw", -2147483648⟩] ∧
    ¬ (∀ r ∈ (AddRawLineEvent emptyWorld 2147483648 "message" "raw").2.db.linebot_raw_events,
        r.timestamp = 2147483648) := by
  decide

/-- C10 (amended): for every clock reading t, on a driver that reports no fault,
AddRawLineEvent, AddUserProfile (for a user without profile), UserAddAnswer and
UserAddGpsAnswer each succeed and append one row whose timestamp is int32(t), that
is t reduced modulo 2^32 into the signed 32-bit range; this value equals t exactly
when -2^31 <= t < 2^31. -/
theorem stored_timestamp_is_int32 (w : World) (t : Int) (hq : Quiet w) :
    (∀ e r : String, (AddRawLineEvent w t e r).1 = none ∧
      (AddRawLineEvent w t e r).2.db.linebot_raw_events
        = w.db.linebot_raw_events ++ [⟨e, r, int32 t⟩]) ∧
    (∀ u d : String, (∀ p ∈ w.db.user_profiles, p.userId ≠ u) →
      (AddUserProfile w t u d).1 = .returned none ∧
      (AddUserProfile w t u d).2.db.user_profiles = w.db.user_profiles ++
        [⟨nextId (w.db.user_profiles.map (fun p => p.id)), u, d, int32 t, 0⟩]) ∧
    (∀ a : Answer, (UserAddAnswer w t a).1 = none ∧
      (UserAddAnswer w t a).2.db.answers = w.db.answers ++
        [⟨nextId (w.db.answers.map (fun x => x.id)), a.UserId, a.QuestionId, a.Answer,
          a.Channel, int32 t⟩]) ∧
    (∀ g : AnswerGps, (UserAddGpsAnswer w t g).1 = none ∧
      (UserAddGpsAnswer w t g).2.db.answers_gps = w.db.answers_gps ++
        [⟨nextId (w.db.answers_gps.map (fun x => x.id)), g.UserId, g.Address, g.Lat, g.Lon,
          g.Channel, int32 t⟩]) ∧
    int32 t = (t + 2147483648) % 4294967296 - 2147483648 ∧
    -2147483648 ≤ int32 t ∧ int32 t < 2147483648 ∧
    (int32 t = t ↔ -2147483648 ≤ t ∧ t < 2147483648) := by
  refine ⟨fun e r => ?_, fun u d hf => ?_, fun a => ?_, fun g => ?_, rfl, ?_, ?_, int32_eq_iff t⟩
  · obtain ⟨h1, -, h3⟩ := AddRawLineEvent_quiet w t e r hq
    exact ⟨h1, by rw [h3]⟩
  · obtain ⟨h1, -, h3⟩ := AddUserProfile_quiet_fresh w t u d hq hf
    exact ⟨h1, by rw [h3]⟩
  · obtain ⟨h1, -, h3⟩ := UserAddAnswer_quiet w t a hq
    exact ⟨h1, by rw [h3]⟩
  · obtain ⟨h1, -, h3⟩ := UserAddGpsAnswer_quiet w t g hq
    exact ⟨h1, by rw [h3]⟩
  · unfold int32; omega
  · unfold int32; omega

/-- C10 witness: the amended statement at the empty store and the clock reading
4294967301 (2^32 + 5), whose stored timestamp is 5. -/
theorem stored_timestamp_is_int32_witness :
    Quiet emptyWorld ∧
    (AddRawLineEvent emptyWorld 4294967301 "message" "raw").2.db.linebot_raw_events
      = [⟨"message", "raw", 5⟩] :=
  ⟨by decide, by
    rw [((stored_timestamp_is_int32 emptyWorld 4294967301 (by decide)).1 "message" "raw").2]
    decide⟩

/-! ## Erasure -/

theorem deleteFromTableUserId_cases (w : World) (table u : String) :
    ((deleteFromTableUserId w table u).1 = none ∧
      deleteWhereUserId table u w.db = .ok (deleteFromTableUserId w table u).2.db) ∨
    ((∃ e, (deleteFromTableUserId w table u).1 = some e) ∧
      (deleteFromTableUserId w table u).2.db = w.db) := by
  rcases w with ⟨db, faults⟩
  cases hrej : deleteTextError table <;> cases hdel : deleteWhereUserId table u db <;>
    rcases faults with _ | ⟨_ | f, _ | ⟨_ | g, rest⟩⟩ <;>
    simp [deleteFromTableUserId, Prepare, Exec, driverCall, hrej, hdel]

theorem delete_user_profiles (w w1 : World) (u : String) :
    (deleteFromTableUserId w "user_profiles" u = (none, w1) →
      w1.db = { w.db with user_profiles := w.db.user_profiles.filter (fun p => p.userId ≠ u) }) ∧
    (∀ e, deleteFromTableUserId w "user_profiles" u = (some e, w1) → w1.db = w.db) := by
  rcases deleteFromTableUserId_cases w "user_profiles" u with ⟨h1, h2⟩ | ⟨⟨e, h1⟩, h2⟩
  · refine ⟨fun h => ?_, fun e h => ?_⟩
    · rw [h] at h2
      simpa [deleteWhereUserId] using h2.symm
    · rw [h] at h1
      simp at h1
  · refine ⟨fun h => ?_, fun e h => ?_⟩
    · rw [h] at h1
      simp at h1
    · rw [h] at h2
      exact h2

theorem delete_answers (w w1 : World) (u : String) :
    (deleteFromTableUserId w "answers" u = (none, w1) →
      w1.db = { w.db with answers := w.db.answers.filter (fun a => a.userId ≠ u) }) ∧
    (∀ e, deleteFromTableUserId w "answers" u = (some e, w1) → w1.db = w.db) := by
  rcases deleteFromTableUserId_cases w "answers" u with ⟨h1, h2⟩ | ⟨⟨e, h1⟩, h2⟩
  · refine ⟨fun h => ?_, fun e h => ?_⟩
    · rw [h] at h2
      simpa [deleteWhereUserId] using h2.symm
    · rw [h] at h1
      simp at h1
  · refine ⟨fun h => ?_, fun e h => ?_⟩
    · rw [h] at h1
      simp at h1
    · rw [h] at h2
      exact h2

theorem delete_answers_gps (w w1 : World) (u : String) :
    (deleteFromTableUserId w "answers_gps" u = (none, w1) →
      w1.db = { w.db with answers_gps := w.db.answers_gps.filter (fun a => a.userId ≠ u) }) ∧
    (∀ e, deleteFromTableUserId w "answers_gps" u = (some e, w1) → w1.db = w.db) := by
  rcases deleteFromTableUserId_cases w "answers_gps" u with ⟨h1, h2⟩ | ⟨⟨e, h1⟩, h2⟩
  · refine ⟨fun h => ?_, fun e h => ?_⟩
    · rw [h] at h2
      simpa [deleteWhereUserId] using h2.symm
    · rw [h] at h1
      simp at h1
  · refine ⟨fun h => ?_, fun e h => ?_⟩
    · rw [h] at h1
      simp at h1
    · rw [h] at h2
      exact h2

theorem wipeUser_unfold (w : World) (u : String) :
    WipeUser w u =
      match deleteFromTableUserId w "user_profiles" u with
      | (some err, w1) => (some err, w1)
      | (none, w1) =>
        match deleteFromTableUserId w1 "answers" u with
        | (some err, w2) => (some err, w2)
        | (none, w2) =>
          match deleteFromTableUserId w2 "answers_gps" u with
          | (some err, w3) => (some err, w3)
          | (none, w3) => (none, w3) := by
  simp only [WipeUser, wipeLoop]

theorem wipeUser_nil_inv (w : World) (u : String) (w3 : World)
    (h : WipeUser w u = (none, w3)) :
    ∃ w1 w2, deleteFromTableUserId w "user_profiles" u = (none, w1) ∧
      deleteFromTableUserId w1 "answers" u = (none, w2) ∧
      deleteFromTableUserId w2 "answers_gps" u = (none, w3) := by
  rw [wipeUser_unfold] at h
  rcases h1 : deleteFromTableUserId w "user_profiles" u with ⟨_ | e1, w1⟩
  · rw [h1] at h
    simp only at h
    rcases h2 : deleteFromTableUserId w1 "answers" u with ⟨_ | e2, w2⟩
    · rw [h2] at h
      simp only at h
      rcases h3 : deleteFromTableUserId w2 "answers_gps" u with ⟨_ | e3, w3b⟩
      · rw [h3] at h
        simp only [Prod.mk.injEq, true_and] at h
        subst h
        exact ⟨w1, w2, rfl, h2, h3⟩
      · rw [h3] at h
        simp at h
    · rw [h2] at h
      simp at h
  · rw [h1] at h
    simp at h

/-- C7: WipeUser deletes from user_profiles, then answers, then answers_gps, and
stops at the first delete that fails with an error e: it returns e; the tables
deleted from before hold no row of the user (they are the old tables without the
rows of the user), the table of the failing delete and every later table are as
before the call; and WipeUser returns nil only if all three deletes returned nil. -/
theorem wipeUser_stops_at_first_failure (w : World) (u : String) :
    (∀ e w1, deleteFromTableUserId w "user_profiles" u = (some e, w1) →
      WipeUser w u = (some e, w1) ∧ w1.db = w.db) ∧
    (∀ e w1 w2, deleteFromTableUserId w "user_profiles" u = (none, w1) →
      deleteFromTableUserId w1 "answers" u = (some e, w2) →
      WipeUser w u = (some e, w2) ∧
      (∀ p ∈ w2.db.user_profiles, p.userId ≠ u) ∧
      w2.db = { w.db with user_profiles := w.db.user_profiles.filter (fun p => p.userId ≠ u) }) ∧
    (∀ e w1 w2 w3, deleteFromTableUserId w "user_profiles" u = (none, w1) →
      deleteFromTableUserId w1 "answers" u = (none, w2) →
      deleteFromTableUserId w2 "answers_gps" u = (some e, w3) →
      WipeUser w u = (some e, w3) ∧
      (∀ p ∈ w3.db.user_profiles, p.userId ≠ u) ∧ (∀ a ∈ w3.db.answers, a.userId ≠ u) ∧
      w3.db = { w.db with
        user_profiles := w.db.user_profiles.filter (fun p => p.userId ≠ u),
        answers := w.db.answers.filter (fun a => a.userId ≠ u) }) ∧
    (∀ w3, WipeUser w u = (none, w3) →
      ∃ w1 w2, deleteFromTableUserId w "user_profiles" u = (none, w1) ∧
        deleteFromTableUserId w1 "answers" u = (none, w2) ∧
        deleteFromTableUserId w2 "answers_gps" u = (none, w3)) := by
  refine ⟨?_, ?_, ?_, ?_⟩
  · intro e w1 h1
    refine ⟨by rw [wipeUser_unfold, h1], (delete_user_profiles w w1 u).2 e h1⟩
  · intro e w1 w2 h1 h2
    have d1 := (delete_user_profiles w w1 u).1 h1
    have d2 := (delete_answers w1 w2 u).2 e h2
    refine ⟨by rw [wipeUser_unfold, h1]; simp only; rw [h2], ?_, by rw [d2, d1]⟩
    rw [d2, d1]
    intro p hp
    simpa using (List.mem_filter.mp hp).2
  · intro e w1 w2 w3 h1 h2 h3
    have d1 := (delete_user_profiles w w1 u).1 h1
    have d2 := (delete_answers w1 w2 u).1 h2
    have d3 := (delete_answers_gps w2 w3 u).2 e h3
    refine ⟨by rw [wipeUser_unfold, h1]; simp only; rw [h2]; simp only; rw [h3], ?_, ?_,
      by rw [d3, d2, d1]⟩
    · rw [d3, d2, d1]
      intro p hp
      simpa using (List.mem_filter.mp hp).2
    · rw [d3, d2, d1]
      intro a ha
      simpa using (List.mem_filter.mp ha).2
  · exact wipeUser_nil_inv w u

/-- C7 witness: on the small store, with the connection lost in the second
delete, WipeUser for u2 returns that error; the profile of u2 is gone while the
answers and positions of u2 are all still there. -/
theorem wipeUser_stops_at_first_failure_witness :
    WipeUser secondDeleteFails "u2" =
      (some (.other "invalid connection"),
        ⟨{ sampleDb with user_profiles := [⟨1, "u1", "Ann", 5, 0⟩, ⟨3, "u3", "Cy", 7, 1⟩] }, []⟩) :=
  ((wipeUser_stops_at_first_failure secondDeleteFails "u2").2.1
    (.other "invalid connection")
    ⟨{ sampleDb with user_profiles := [⟨1, "u1", "Ann", 5, 0⟩, ⟨3, "u3", "Cy", 7, 1⟩] },
      [none, some (.other "invalid connection")]⟩
    ⟨{ sampleDb with user_profiles := [⟨1, "u1", "Ann", 5, 0⟩, ⟨3, "u3", "Cy", 7, 1⟩] }, []⟩
    (by decide) (by decide)).1

/-- C6: after a WipeUser(u) that returned nil, user_profiles, answers and
answers_gps are the old tables without the rows of u (no row of u is left, every
other row is kept, in place), and linebot_raw_events, questions and welcome_msgs
are unchanged. -/
theorem wipeUser_success (w : World) (u : String) (h : (WipeUser w u).1 = none) :
    (WipeUser w u).2.db.user_profiles = w.db.user_profiles.filter (fun p => p.userId ≠ u) ∧
    (WipeUser w u).2.db.answers = w.db.answers.filter (fun a => a.userId ≠ u) ∧
    (WipeUser w u).2.db.answers_gps = w.db.answers_gps.filter (fun a => a.userId ≠ u) ∧
    (∀ p ∈ (WipeUser w u).2.db.user_profiles, p.userId ≠ u) ∧
    (∀ a ∈ (WipeUser w u).2.db.answers, a.userId ≠ u) ∧
    (∀ a ∈ (WipeUser w u).2.db.answers_gps, a.userId ≠ u) ∧
    (WipeUser w u).2.db.linebot_raw_events = w.db.linebot_raw_events ∧
    (WipeUser w u).2.db.questions = w.db.questions ∧
    (WipeUser w u).2.db.welcome_msgs = w.db.welcome_msgs := by
  rcases hr : WipeUser w u with ⟨err, w3⟩
  rw [hr] at h
  simp only at h
  subst h
  obtain ⟨w1, w2, h1, h2, h3⟩ := wipeUser_nil_inv w u w3 hr
  have d1 := (delete_user_profiles w w1 u).1 h1
  have d2 := (delete_answers w1 w2 u).1 h2
  have d3 := (delete_answers_gps w2 w3 u).1 h3
  have e : w3.db = { w.db with
      user_profiles := w.db.user_profiles.filter (fun p => p.userId ≠ u),
      answers := w.db.answers.filter (fun a => a.userId ≠ u),
      answers_gps := w.db.answers_gps.filter (fun a => a.userId ≠ u) } := by
    rw [d3, d2, d1]
  rw [e]
  refine ⟨rfl, rfl, rfl, ?_, ?_, ?_, rfl, rfl, rfl⟩
  · intro p hp
    simpa using (List.mem_filter.mp hp).2
  · intro a ha
    simpa using (List.mem_filter.mp ha).2
  · intro a ha
    simpa using (List.mem_filter.mp ha).2

/-- C6 witness: on the small store WipeUser for u2 returns nil; afterwards only
the profiles of u1 and u3 and the position of u1 are left, no answer is left,
and the raw event that mentions u2 is still there. -/
theorem wipeUser_success_witness :
    (WipeUser sampleWorld "u2").1 = none ∧
    (WipeUser sampleWorld "u2").2.db.user_profiles
      = [⟨1, "u1", "Ann", 5, 0⟩, ⟨3, "u3", "Cy", 7, 1⟩] ∧
    (WipeUser sampleWorld "u2").2.db.linebot_raw_events = [⟨"follow", "source u2", 4⟩] :=
  ⟨by decide,
    (wipeUser_success sampleWorld "u2" (by decide)).1.trans (by decide),
    (wipeUser_success sampleWorld "u2" (by decide)).2.2.2.2.2.2.1.trans (by decide)⟩

/-! ## Reading answers -/

theorem mem_scan_filter (eng : Engine) {α : Type} (l : List α) (P : α → Bool) (x : α) :
    x ∈ (eng.scan l).filter P ↔ x ∈ l ∧ P x = true := by
  rw [List.mem_filter, (eng.scan_perm l).mem_iff]

theorem selectLastAnswer_spec (eng : Engine) (db : Db) (uid : String) :
    (selectLastAnswer eng db uid = [] ∧
      ∀ a ∈ db.answers, a.userId = uid → a.answer = "") ∨
    (∃ r, selectLastAnswer eng db uid = [r] ∧ r ∈ db.answers ∧ r.userId = uid ∧ r.answer ≠ "" ∧
      ∀ b ∈ db.answers, b.userId = uid → b.answer ≠ "" → b.timestamp ≤ r.timestamp) := by
  have hmem : ∀ x, x ∈ List.insertionSort tsDesc
      ((eng.scan db.answers).filter (fun a => a.userId = uid ∧ a.answer ≠ "")) ↔
      x ∈ db.answers ∧ x.userId = uid ∧ x.answer ≠ "" := by
    intro x
    rw [List.mem_insertionSort, mem_scan_filter]
    simp
  have hsorted := List.sorted_insertionSort tsDesc
      ((eng.scan db.answers).filter (fun a => a.userId = uid ∧ a.answer ≠ ""))
  unfold selectLastAnswer
  rcases hS : List.insertionSort tsDesc
      ((eng.scan db.answers).filter (fun a => a.userId = uid ∧ a.answer ≠ "")) with _ | ⟨r, rest⟩
  · left
    refine ⟨rfl, fun a ha hu => ?_⟩
    by_contra hne
    have := (hmem a).2 ⟨ha, hu, hne⟩
    rw [hS] at this
    simp at this
  · right
    rw [hS] at hsorted hmem
    have hr := (hmem r).1 (List.mem_cons_self _ _)
    refine ⟨r, rfl, hr.1, hr.2.1, hr.2.2, fun b hb hu hne => ?_⟩
    have hbm := (hmem b).2 ⟨hb, hu, hne⟩
    rcases List.mem_cons.mp hbm with h | h
    · rw [h]
    · exact List.rel_of_sorted_cons hsorted b h

theorem userHasAnswers_true (w : World) (uid : String) (hq : (driverCall w).1 = none)
    (hex : ∃ a ∈ w.db.answers, a.userId = uid) :
    (UserHasAnswers w uid).1 = (true, none) := by
  obtain ⟨a, ha, hau⟩ := hex
  have hd := driverCall_db w
  rcases hc : driverCall w with ⟨f, w1⟩
  rw [hc] at hq hd
  simp only at hq hd
  subst hq
  have hpos : 0 < countAnswers w.db uid := by
    unfold countAnswers
    exact List.length_pos_of_mem (List.mem_filter.mpr ⟨ha, by simpa using hau⟩)
  simp [UserHasAnswers, hc, hd, hpos]

theorem userGetLastAnswer_eval (eng : Engine) (w : World) (uid : String)
    (hq : (driverCall w).1 = none) :
    ((UserGetLastAnswer eng w uid).1 = (emptyAnswer, some .errNoRows) ∧
      ∀ a ∈ w.db.answers, a.userId = uid → a.answer = "") ∨
    (∃ r ∈ w.db.answers, r.userId = uid ∧ r.answer ≠ "" ∧
      (∀ b ∈ w.db.answers, b.userId = uid → b.answer ≠ "" → b.timestamp ≤ r.timestamp) ∧
      (UserGetLastAnswer eng w uid).1
        = (⟨r.id, r.userId, r.questionId, r.answer, "", r.timestamp⟩, none)) := by
  have hd := driverCall_db w
  rcases hc : driverCall w with ⟨f, w1⟩
  rw [hc] at hq hd
  simp only at hq hd
  subst hq
  rcases selectLastAnswer_spec eng w.db uid with ⟨hsel, hnone⟩ | ⟨r, hsel, hr, hu, hne, hmax⟩
  · left
    exact ⟨by simp [UserGetLastAnswer, hc, hd, hsel], hnone⟩
  · right
    exact ⟨r, hr, hu, hne, hmax, by simp [UserGetLastAnswer, hc, hd, hsel]⟩

theorem userGetLastAnswer_error_path (eng : Engine) (w : World) (uid : String) (e : GoError)
    (h : (UserGetLastAnswer eng w uid).1.2 = some e) :
    (UserGetLastAnswer eng w uid).1.1 = emptyAnswer := by
  rcases hc : driverCall w with ⟨_ | e0, w1⟩
  · rcases hs : selectLastAnswer eng w1.db uid with _ | ⟨r, rest⟩
    · simp [UserGetLastAnswer, hc, hs]
    · simp [UserGetLastAnswer, hc, hs] at h
  · simp [UserGetLastAnswer, hc]

theorem userGetLastAnswer_db (eng : Engine) (w : World) (uid : String) :
    (UserGetLastAnswer eng w uid).2.db = w.db := by
  have hd := driverCall_db w
  rcases hc : driverCall w with ⟨_ | e0, w1⟩ <;> rw [hc] at hd <;> simp only at hd
  · rcases hs : selectLastAnswer eng w1.db uid with _ | ⟨r, rest⟩ <;>
      simp only [UserGetLastAnswer, hc, hs] <;> exact hd
  · simp only [UserGetLastAnswer, hc]
    exact hd

/-- C5: when the query of UserGetLastAnswer does not fail, the method returns
sql.ErrNoRows exactly when the user has no answers row with non-empty text (also
when the user has rows, all with empty text, for which UserHasAnswers is true);
otherwise it returns nil and the fields of a row of that user with non-empty text
whose timestamp is the largest among such rows. Whenever it returns an error, the
returned Answer is the zero value. No table is changed. -/
theorem userGetLastAnswer_spec (eng : Engine) (w : World) (uid : String) :
    ((driverCall w).1 = none →
      ((UserGetLastAnswer eng w uid).1.2 = some .errNoRows ↔
        ∀ a ∈ w.db.answers, a.userId = uid → a.answer = "") ∧
      ((∃ a ∈ w.db.answers, a.userId = uid) →
        (∀ a ∈ w.db.answers, a.userId = uid → a.answer = "") →
        (UserGetLastAnswer eng w uid).1.2 = some .errNoRows ∧
        (UserHasAnswers w uid).1 = (true, none)) ∧
      ((∃ a ∈ w.db.answers, a.userId = uid ∧ a.answer ≠ "") →
        (UserGetLastAnswer eng w uid).1.2 = none ∧
        ∃ r ∈ w.db.answers, r.userId = uid ∧ r.answer ≠ "" ∧
          (∀ b ∈ w.db.answers, b.userId = uid → b.answer ≠ "" → b.timestamp ≤ r.timestamp) ∧
          (UserGetLastAnswer eng w uid).1.1
            = ⟨r.id, r.userId, r.questionId, r.answer, "", r.timestamp⟩)) ∧
    (∀ e, (UserGetLastAnswer eng w uid).1.2 = some e →
      (UserGetLastAnswer eng w uid).1.1 = emptyAnswer) ∧
    (UserGetLastAnswer eng w uid).2.db = w.db := by
  refine ⟨fun hq => ?_, userGetLastAnswer_error_path eng w uid, userGetLastAnswer_db eng w uid⟩
  rcases userGetLastAnswer_eval eng w uid hq with ⟨hres, hnone⟩ | ⟨r, hr, hu, hne, hmax, hres⟩
  · rw [hres]
    refine ⟨?_, ?_, ?_⟩
    · simp only [true_iff]
      exact hnone
    · intro hex _
      exact ⟨rfl, userHasAnswers_true w uid hq hex⟩
    · rintro ⟨a, ha, hau, hane⟩
      exact absurd (hnone a ha hau) hane
  · rw [hres]
    refine ⟨?_, ?_, ?_⟩
    · simp only [false_iff, reduceCtorEq]
      intro hall
      exact hne (hall r hr hu)
    · intro _ hall
      exact absurd (hall r hr hu) hne
    · intro _
      exact ⟨rfl, r, hr, hu, hne, hmax, rfl⟩

/-- C5 witness: on the small store the query for u2 does not fail and returns the
row q2 (non-empty text, timestamp 50, the largest), although the row q1 with
empty text has the same timestamp. -/
theorem userGetLastAnswer_spec_witness :
    (driverCall sampleWorld).1 = none ∧
    (UserGetLastAnswer tableOrder sampleWorld "u2").1.2 = none ∧
    ((UserGetLastAnswer tableOrder sampleWorld "u3").1.2 = some .errNoRows ↔
      ∀ a ∈ sampleWorld.db.answers, a.userId = "u3" → a.answer = "") :=
  ⟨by decide, by decide,
    ((userGetLastAnswer_spec tableOrder sampleWorld "u3").1 (by decide)).1⟩

/-- C4 (as stated, refuted): (1) after UserAddAnswer of the answer (u1, q1, yes,
channel line) on the empty store, UserGetLastAnswer(u1) returns an Answer whose
Channel is the empty string, not line, whatever the row order of the engine;
(2) when u1 already has the answer (q0, no) written in second 100 and
(u1, q1, yes) is added in the same second 100, an engine that hands out tied rows
in table order makes UserGetLastAnswer(u1) return the earlier answer q0. -/
theorem userGetLastAnswer_after_add_differs :
    (UserAddAnswer emptyWorld 100 ⟨0, "u1", "q1", "yes", "line", 0⟩).1 = none ∧
    (UserGetLastAnswer tableOrder
      (UserAddAnswer emptyWorld 100 ⟨0, "u1", "q1", "yes", "line", 0⟩).2 "u1").1
      = (⟨1, "u1", "q1", "yes", "", 100⟩, none) ∧
    (UserGetLastAnswer reverseOrder
      (UserAddAnswer emptyWorld 100 ⟨0, "u1", "q1", "yes", "line", 0⟩).2 "u1").1
      = (⟨1, "u1", "q1", "yes", "", 100⟩, none) ∧
    (UserGetLastAnswer tableOrder
      (UserAddAnswer emptyWorld 100 ⟨0, "u1", "q1", "yes", "line", 0⟩).2 "u1").1.1.Channel
      ≠ "line" ∧
    (UserAddAnswer earlierAnswerWorld 100 ⟨0, "u1", "q1", "yes", "", 0⟩).1 = none ∧
    (UserGetLastAnswer tableOrder
      (UserAddAnswer earlierAnswerWorld 100 ⟨0, "u1", "q1", "yes", "", 0⟩).2 "u1").1
      = (⟨1, "u1", "q0", "no", "", 100⟩, none) ∧
    (UserGetLastAnswer tableOrder
      (UserAddAnswer earlierAnswerWorld 100 ⟨0, "u1", "q1", "yes", "", 0⟩).2 "u1").1.1.QuestionId
      ≠ "q1" := by
  decide

/-- C4 (amended): after a successful UserAddAnswer(a) with non-empty answer text,
in every later state of the driver with the same tables whose next call does not
fail, UserHasAnswers(a.userId) returns true and UserGetLastAnswer(a.userId)
returns nil and an Answer of that user with non-empty text, an empty Channel (the
query does not read the column) and a timestamp not below the new row's; when
every earlier non-empty answer of the user has a stored timestamp strictly below
the new row's int32(now), the returned userId, questionId and answer text are
those of a. -/
theorem userGetLastAnswer_after_add (eng : Engine) (w : World) (now : Int) (a : Answer)
    (w2 : World) (hne : a.Answer ≠ "") (hadd : (UserAddAnswer w now a).1 = none)
    (h2 : w2.db = (UserAddAnswer w now a).2.db) (hq2 : (driverCall w2).1 = none) :
    (UserHasAnswers w2 a.UserId).1 = (true, none) ∧
    (UserGetLastAnswer eng w2 a.UserId).1.2 = none ∧
    (UserGetLastAnswer eng w2 a.UserId).1.1.UserId = a.UserId ∧
    (UserGetLastAnswer eng w2 a.UserId).1.1.Answer ≠ "" ∧
    (UserGetLastAnswer eng w2 a.UserId).1.1.Channel = "" ∧
    int32 now ≤ (UserGetLastAnswer eng w2 a.UserId).1.1.Timestamp ∧
    ((∀ b ∈ w.db.answers, b.userId = a.UserId → b.answer ≠ "" → b.timestamp < int32 now) →
      (UserGetLastAnswer eng w2 a.UserId).1.1
        = ⟨nextId (w.db.answers.map (fun x => x.id)), a.UserId, a.QuestionId, a.Answer, "",
            int32 now⟩) := by
  have hdb := UserAddAnswer_ok w now a hadd
  rw [hdb] at h2
  have hans : w2.db.answers = w.db.answers ++
      [⟨nextId (w.db.answers.map (fun x => x.id)), a.UserId, a.QuestionId, a.Answer,
        a.Channel, int32 now⟩] := by rw [h2]
  have hnew : (⟨nextId (w.db.answers.map (fun x => x.id)), a.UserId, a.QuestionId, a.Answer,
        a.Channel, int32 now⟩ : AnswerRow) ∈ w2.db.answers := by
    rw [hans]; simp
  have hhas := userHasAnswers_true w2 a.UserId hq2 ⟨_, hnew, rfl⟩
  rcases userGetLastAnswer_eval eng w2 a.UserId hq2 with
    ⟨-, hnone⟩ | ⟨r, hr, hu, hrne, hmax, hres⟩
  · exact absurd (hnone _ hnew rfl) hne
  · have hge := hmax _ hnew rfl hne
    simp only at hge
    rw [hres]
    refine ⟨hhas, rfl, hu, hrne, rfl, hge, ?_⟩
    intro hlt
    rw [hans] at hr
    rcases List.mem_append.mp hr with hold | hlast
    · have := hlt r hold hu hrne
      omega
    · rw [List.mem_singleton] at hlast
      rw [hlast]

/-- C4 witness: the amended statement at the store where u1 already answered q0 in
second 100, for the answer (u1, q1, yes) written in second 101. -/
theorem userGetLastAnswer_after_add_witness :
    (UserGetLastAnswer tableOrder
      (UserAddAnswer earlierAnswerWorld 101 ⟨0, "u1", "q1", "yes", "line", 0⟩).2 "u1").1.1
      = ⟨2, "u1", "q1", "yes", "", 101⟩ :=
  ((userGetLastAnswer_after_add tableOrder earlierAnswerWorld 101 ⟨0, "u1", "q1", "yes", "line", 0⟩
    (UserAddAnswer earlierAnswerWorld 101 ⟨0, "u1", "q1", "yes", "line", 0⟩).2
    (by decide) (by decide) rfl (by decide)).2.2.2.2.2.2 (by decide)).trans (by decide)

/-! ## The row loop -/

theorem scanRows_quiet_nil {ρ β : Type} (body : β → ρ → Except GoError β) (acc : β) (w : World)
    (hq : Quiet w) :
    ∃ w1, w1.db = w.db ∧ Quiet w1 ∧ scanRows body [] acc w = ((acc, none), w1) := by
  obtain ⟨w1, h1, hd1, hq1⟩ := driverCall_of_quiet w hq
  exact ⟨w1, hd1, hq1, by simp [scanRows, h1]⟩

theorem scanRows_quiet_cons {ρ β : Type} (body : β → ρ → Except GoError β) (r : ρ) (rs : List ρ)
    (acc : β) (w : World) (hq : Quiet w) :
    ∃ w2, w2.db = w.db ∧ Quiet w2 ∧
      scanRows body (r :: rs) acc w =
        match body acc r with
        | .error e => ((acc, some e), w2)
        | .ok acc2 => scanRows body rs acc2 w2 := by
  obtain ⟨w1, h1, hd1, hq1⟩ := driverCall_of_quiet w hq
  obtain ⟨w2, h2, hd2, hq2⟩ := driverCall_of_quiet w1 hq1
  exact ⟨w2, hd2.trans hd1, hq2, by simp [scanRows, h1, h2]⟩

theorem scanRows_db {ρ β : Type} (body : β → ρ → Except GoError β) (rows : List ρ) :
    ∀ (acc : β) (w : World), (scanRows body rows acc w).2.db = w.db := by
  induction rows with
  | nil =>
    intro acc w
    have hd := driverCall_db w
    rcases hc : driverCall w with ⟨_ | e, w1⟩ <;> rw [hc] at hd <;> simpa [scanRows, hc] using hd
  | cons r rs ih =>
    intro acc w
    have hd := driverCall_db w
    rcases hc : driverCall w with ⟨_ | e, w1⟩ <;> rw [hc] at hd <;> simp only at hd
    · have hd1 := driverCall_db w1
      rcases hc1 : driverCall w1 with ⟨_ | e1, w2⟩ <;> rw [hc1] at hd1 <;> simp only at hd1
      · cases hb : body acc r with
        | error e => simp [scanRows, hc, hc1, hb, hd, hd1]
        | ok acc2 =>
          simp only [scanRows, hc, hc1, hb]
          rw [ih acc2 w2, hd1, hd]
      · simp [scanRows, hc, hc1, hd, hd1]
    · simp [scanRows, hc, hd]

theorem scanRows_collect {ρ β : Type} (f : ρ → β) (rows : List ρ) :
    ∀ (acc : List β) (w : World),
      (scanRows (fun (xs : List β) (x : ρ) => Except.ok (xs ++ [f x])) rows acc w).1.2 = none →
      (scanRows (fun (xs : List β) (x : ρ) => Except.ok (xs ++ [f x])) rows acc w).1.1
        = acc ++ rows.map f := by
  induction rows with
  | nil =>
    intro acc w
    rcases hc : driverCall w with ⟨_ | e, w1⟩ <;> simp [scanRows, hc]
  | cons r rs ih =>
    intro acc w
    rcases hc : driverCall w with ⟨_ | e, w1⟩
    · rcases hc1 : driverCall w1 with ⟨_ | e1, w2⟩
      · simp only [scanRows, hc, hc1]
        intro h
        rw [ih _ w2 h]
        simp
      · simp [scanRows, hc, hc1]
    · simp [scanRows, hc]

theorem scanRows_collect_quiet {ρ β : Type} (f : ρ → β) (rows : List ρ) :
    ∀ (acc : List β) (w : World), Quiet w →
      (scanRows (fun (xs : List β) (x : ρ) => Except.ok (xs ++ [f x])) rows acc w).1.2 = none := by
  induction rows with
  | nil =>
    intro acc w hq
    obtain ⟨w1, -, -, h⟩ := scanRows_quiet_nil
      (fun (xs : List β) (x : ρ) => Except.ok (xs ++ [f x])) acc w hq
    rw [h]
  | cons r rs ih =>
    intro acc w hq
    obtain ⟨w2, -, hq2, h⟩ := scanRows_quiet_cons
      (fun (xs : List β) (x : ρ) => Except.ok (xs ++ [f x])) r rs acc w hq
    rw [h]
    exact ih _ w2 hq2

/-! ## Users without answers -/

theorem filter_leftJoin_unanswered (as : List AnswerRow) (c : Int) (ps : List ProfileRow) :
    (leftJoinAnswers ps as).filter
        (fun r => decide (r.2 = none ∧ r.1.bot_survey_inited = 0 ∧ r.1.timestamp < c)) =
      (ps.filter (fun p => decide ((∀ a ∈ as, a.userId ≠ p.userId) ∧
        p.bot_survey_inited = 0 ∧ p.timestamp < c))).map (fun p => (p, none)) := by
  induction ps with
  | nil => rfl
  | cons p ps ih =>
    rcases hm : as.filter (fun a => decide (a.userId = p.userId)) with _ | ⟨m, ms⟩
    · have hcons : leftJoinAnswers (p :: ps) as = [(p, none)] ++ leftJoinAnswers ps as := by
        simp [leftJoinAnswers, List.flatMap_cons, hm]
      have hall : ∀ a ∈ as, a.userId ≠ p.userId := by
        intro a ha hu
        have : a ∈ as.filter (fun a => decide (a.userId = p.userId)) :=
          List.mem_filter.mpr ⟨ha, by simpa using hu⟩
        rw [hm] at this
        simp at this
      rw [hcons, List.filter_append, ih]
      simp only [List.filter_cons, List.filter_nil, decide_eq_true_eq]
      by_cases hS : p.bot_survey_inited = 0 ∧ p.timestamp < c
      · rw [if_pos ⟨trivial, hS⟩, if_pos ⟨hall, hS⟩]
        rfl
      · rw [if_neg (fun h => hS h.2), if_neg (fun h => hS h.2)]
        rfl
    · have hcons : leftJoinAnswers (p :: ps) as =
          (m :: ms).map (fun a => (p, some a)) ++ leftJoinAnswers ps as := by
        simp [leftJoinAnswers, List.flatMap_cons, hm]
      have hmm : m ∈ as.filter (fun a => decide (a.userId = p.userId)) := by
        rw [hm]; exact List.mem_cons_self _ _
      have hmu := List.mem_filter.mp hmm
      have hblock : ((m :: ms).map (fun a => (p, some a))).filter
          (fun r => decide (r.2 = none ∧ r.1.bot_survey_inited = 0 ∧ r.1.timestamp < c)) = [] := by
        rw [List.filter_eq_nil_iff]
        intro r hr
        obtain ⟨a, -, rfl⟩ := List.mem_map.mp hr
        simp
      rw [hcons, List.filter_append, ih, hblock]
      simp only [List.filter_cons, decide_eq_true_eq]
      rw [if_neg (fun h => h.1 m hmu.1 (by simpa using hmu.2))]
      rfl

theorem selectUsersWithoutAnswers_spec (eng : Engine) (db : Db) (c : Int)
    (huniq : UniqueProfiles db) :
    (selectUsersWithoutAnswers eng db c).Nodup ∧
    ∀ u, u ∈ selectUsersWithoutAnswers eng db c ↔
      ∃ p ∈ db.user_profiles, p.userId = u ∧ p.timestamp < c ∧ p.bot_survey_inited = 0 ∧
        ∀ a ∈ db.answers, a.userId ≠ u := by
  have hperm : List.Perm (selectUsersWithoutAnswers eng db c)
      ((db.user_profiles.filter (fun p => decide ((∀ a ∈ db.answers, a.userId ≠ p.userId) ∧
        p.bot_survey_inited = 0 ∧ p.timestamp < c))).map (fun p => p.userId)) := by
    unfold selectUsersWithoutAnswers
    have h1 := ((eng.scan_perm (leftJoinAnswers db.user_profiles db.answers)).filter
      (fun r => decide (r.2 = none ∧ r.1.bot_survey_inited = 0 ∧ r.1.timestamp < c))).map
      (fun r => r.1.userId)
    rw [filter_leftJoin_unanswered, List.map_map] at h1
    exact h1
  refine ⟨?_, fun u => ?_⟩
  · refine hperm.nodup_iff.mpr ?_
    exact List.Nodup.sublist (List.Sublist.map _ (List.filter_sublist _)) huniq
  · rw [hperm.mem_iff, List.mem_map]
    constructor
    · rintro ⟨p, hp, rfl⟩
      obtain ⟨hp1, hp2⟩ := List.mem_filter.mp hp
      simp only [decide_eq_true_eq] at hp2
      exact ⟨p, hp1, rfl, hp2.2.2, hp2.2.1, hp2.1⟩
    · rintro ⟨p, hp, rfl, h1, h2, h3⟩
      exact ⟨p, List.mem_filter.mpr ⟨hp, by simp only [decide_eq_true_eq]; exact ⟨h3, h2, h1⟩⟩, rfl⟩

/-- C3 (as stated, refuted): on the small store at the clock reading 100 with
delaySecs = -9223372036854775808 (-2^63), the profile of u1 has timestamp 5, which
is below now - delaySecs = 100 + 2^63, bot_survey_inited = 0 and no answers row,
yet the call returns nil and the empty list, whatever the row order of the
engine: the int64 difference wraps to 100 - 2^63. -/
theorem getUsersWithoutAnswers_difference_wraps :
    UniqueProfiles sampleWorld.db ∧
    (GetUsersWithoutAnswers tableOrder sampleWorld 100 (-9223372036854775808)).1 = ([], none) ∧
    (GetUsersWithoutAnswers reverseOrder sampleWorld 100 (-9223372036854775808)).1 = ([], none) ∧
    (∃ p ∈ sampleWorld.db.user_profiles, p.userId = "u1" ∧
      p.timestamp < 100 - (-9223372036854775808) ∧ p.bot_survey_inited = 0 ∧
      ∀ a ∈ sampleWorld.db.answers, a.userId ≠ "u1") ∧
    "u1" ∉ (GetUsersWithoutAnswers tableOrder sampleWorld 100 (-9223372036854775808)).1.1 ∧
    int64 (100 - (-9223372036854775808)) = 100 - 9223372036854775808 := by
  decide

/-- C3 (amended): on a store with unique profile userIds, a
GetUsersWithoutAnswers(delaySecs) that returns nil returns, each once, exactly the
userIds u whose profile has timestamp < tsCompare, where tsCompare is the int64
difference now - delaySecs that the code computes (it wraps modulo 2^64 and is
the exact difference whenever that lies in [-2^63, 2^63)), bot_survey_inited = 0,
and for which answers holds no row with userId = u, whatever the answer text; so
for every returned user UserHasAnswers reports false. The call changes no table. -/
theorem getUsersWithoutAnswers_spec (eng : Engine) (w : World) (now delaySecs : Int)
    (huniq : UniqueProfiles w.db)
    (hok : (GetUsersWithoutAnswers eng w now delaySecs).1.2 = none) :
    (GetUsersWithoutAnswers eng w now delaySecs).1.1.Nodup ∧
    (∀ u, u ∈ (GetUsersWithoutAnswers eng w now delaySecs).1.1 ↔
      ∃ p ∈ w.db.user_profiles, p.userId = u ∧ p.timestamp < int64 (now - delaySecs) ∧
        p.bot_survey_inited = 0 ∧ ∀ a ∈ w.db.answers, a.userId ≠ u) ∧
    (∀ u ∈ (GetUsersWithoutAnswers eng w now delaySecs).1.1,
      (∀ a ∈ w.db.answers, a.userId ≠ u) ∧
      ∀ w2 : World, w2.db = w.db → (UserHasAnswers w2 u).1.1 = false ∧
        ((driverCall w2).1 = none → (UserHasAnswers w2 u).1 = (false, none))) ∧
    (-9223372036854775808 ≤ now - delaySecs ∧ now - delaySecs < 9223372036854775808 →
      int64 (now - delaySecs) = now - delaySecs) ∧
    (GetUsersWithoutAnswers eng w now delaySecs).2.db = w.db := by
  have hd := driverCall_db w
  rcases hc : driverCall w with ⟨_ | e, w1⟩
  swap
  · simp [GetUsersWithoutAnswers, hc] at hok
  rw [hc] at hd
  simp only at hd
  have hres : GetUsersWithoutAnswers eng w now delaySecs =
      scanRows (fun (xs : List String) (x : String) => Except.ok (xs ++ [(fun y : String => y) x]))
        (selectUsersWithoutAnswers eng w.db (int64 (now - delaySecs))) [] w1 := by
    simp [GetUsersWithoutAnswers, hc, hd]
  rw [hres] at hok ⊢
  have hids := scanRows_collect (fun y : String => y) _ [] w1 hok
  simp only [List.nil_append, List.map_id'] at hids
  rw [hids, scanRows_db, hd]
  obtain ⟨hnd, hmem⟩ := selectUsersWithoutAnswers_spec eng w.db (int64 (now - delaySecs)) huniq
  refine ⟨hnd, hmem, ?_, ?_, rfl⟩
  · intro u hu
    obtain ⟨p, -, -, -, -, hno⟩ := (hmem u).1 hu
    refine ⟨hno, fun w2 h2 => ?_⟩
    have hzero : countAnswers w2.db u = 0 := by
      unfold countAnswers
      rw [h2, List.length_eq_zero, List.filter_eq_nil_iff]
      intro a ha
      simpa using hno a ha
    rcases hc2 : driverCall w2 with ⟨_ | e, w3⟩
    · have hd2 := driverCall_db w2
      rw [hc2] at hd2
      simp only at hd2
      simp [UserHasAnswers, hc2, hd2, hzero]
    · simp [UserHasAnswers, hc2]
  · intro h
    unfold int64
    omega

/-- C3 witness: on the small store at clock reading 100 with delay 0 the call
returns nil and exactly u1: u2 has answers (one of them with empty text) and u3
has bot_survey_inited = 1. -/
theorem getUsersWithoutAnswers_spec_witness :
    UniqueProfiles sampleWorld.db ∧
    (GetUsersWithoutAnswers tableOrder sampleWorld 100 0).1 = (["u1"], none) ∧
    (∀ u, u ∈ (GetUsersWithoutAnswers tableOrder sampleWorld 100 0).1.1 ↔
      ∃ p ∈ sampleWorld.db.user_profiles, p.userId = u ∧ p.timestamp < int64 (100 - 0) ∧
        p.bot_survey_inited = 0 ∧ ∀ a ∈ sampleWorld.db.answers, a.userId ≠ u) :=
  ⟨by decide, by decide,
    (getUsersWithoutAnswers_spec tableOrder sampleWorld 100 0 (by decide) (by decide)).2.1⟩

/-! ## Welcome messages -/

theorem welcomeLoop_all_render (tpl : TemplateLib) (vars : Option WelcomeMsgTplVars)
    (l : List String) :
    ∀ (acc : List String) (w : World), Quiet w →
      (∀ s ∈ l, (applyWelcomeTpl tpl s vars).2 = none) →
      (scanRows (fun msgs msgRaw =>
          match applyWelcomeTpl tpl msgRaw vars with
          | (_, some err) => Except.error err
          | (msg, none) => Except.ok (msgs ++ [msg])) l acc w).1
        = (acc ++ l.map (fun s => (applyWelcomeTpl tpl s vars).1), none) := by
  induction l with
  | nil =>
    intro acc w hq _
    obtain ⟨w1, -, -, h⟩ := scanRows_quiet_nil (fun msgs msgRaw =>
          match applyWelcomeTpl tpl msgRaw vars with
          | (_, some err) => Except.error err
          | (msg, none) => Except.ok (msgs ++ [msg])) acc w hq
    rw [h]
    simp
  | cons s l ih =>
    intro acc w hq hall
    obtain ⟨w2, -, hq2, h⟩ := scanRows_quiet_cons (fun msgs msgRaw =>
          match applyWelcomeTpl tpl msgRaw vars with
          | (_, some err) => Except.error err
          | (msg, none) => Except.ok (msgs ++ [msg])) s l acc w hq
    rw [h]
    have hs := hall s (List.mem_cons_self _ _)
    rcases ha : applyWelcomeTpl tpl s vars with ⟨msg, _ | err⟩
    · simp only
      rw [ih _ w2 hq2 (fun x hx => hall x (List.mem_cons_of_mem _ hx))]
      simp [ha]
    · rw [ha] at hs
      simp at hs

theorem welcomeLoop_first_failure (tpl : TemplateLib) (vars : Option WelcomeMsgTplVars)
    (s : String) (post : List String) (e : GoError) (pre : List String) :
    ∀ (acc : List String) (w : World), Quiet w →
      (∀ x ∈ pre, (applyWelcomeTpl tpl x vars).2 = none) →
      (applyWelcomeTpl tpl s vars).2 = some e →
      (scanRows (fun msgs msgRaw =>
          match applyWelcomeTpl tpl msgRaw vars with
          | (_, some err) => Except.error err
          | (msg, none) => Except.ok (msgs ++ [msg])) (pre ++ s :: post) acc w).1
        = (acc ++ pre.map (fun x => (applyWelcomeTpl tpl x vars).1), some e) := by
  induction pre with
  | nil =>
    intro acc w hq _ hs
    obtain ⟨w2, -, -, h⟩ := scanRows_quiet_cons (fun msgs msgRaw =>
          match applyWelcomeTpl tpl msgRaw vars with
          | (_, some err) => Except.error err
          | (msg, none) => Except.ok (msgs ++ [msg])) s post acc w hq
    rw [List.nil_append, h]
    rcases ha : applyWelcomeTpl tpl s vars with ⟨msg, _ | err⟩
    · rw [ha] at hs
      simp at hs
    · rw [ha] at hs
      simp only [Option.some.injEq] at hs
      simp [hs]
  | cons x pre ih =>
    intro acc w hq hall hs
    obtain ⟨w2, -, hq2, h⟩ := scanRows_quiet_cons (fun msgs msgRaw =>
          match applyWelcomeTpl tpl msgRaw vars with
          | (_, some err) => Except.error err
          | (msg, none) => Except.ok (msgs ++ [msg])) x (pre ++ s :: post) acc w hq
    rw [List.cons_append, h]
    have hx := hall x (List.mem_cons_self _ _)
    rcases ha : applyWelcomeTpl tpl x vars with ⟨msg, _ | err⟩
    · simp only
      rw [ih _ w2 hq2 (fun y hy => hall y (List.mem_cons_of_mem _ hy)) hs]
      simp [ha]
    · rw [ha] at hx
      simp at hx

theorem applyWelcomeTpl_of_renders (tpl : TemplateLib) (vars : Option WelcomeMsgTplVars)
    (msg out : String) (tmpl : Option WelcomeMsgTplVars → Except GoError String)
    (hp : tpl.Parse msg = .ok tmpl) (he : tmpl vars = .ok out) :
    applyWelcomeTpl tpl msg vars = (out, none) := by
  simp [applyWelcomeTpl, hp, he]

theorem applyWelcomeTpl_of_fails (tpl : TemplateLib) (vars : Option WelcomeMsgTplVars)
    (msg : String) (e : GoError)
    (h : tpl.Parse msg = .error e ∨ ∃ tmpl, tpl.Parse msg = .ok tmpl ∧ tmpl vars = .error e) :
    applyWelcomeTpl tpl msg vars = ("", some e) := by
  rcases h with hp | ⟨tmpl, hp, he⟩
  · simp [applyWelcomeTpl, hp]
  · simp [applyWelcomeTpl, hp, he]

/-- C9: on a driver that reports no fault, GetWelcomeMsgs works through the rows of
welcome_msgs whose channel is line or both, and only those, in ascending weight
order, and renders each: the template text is parsed and the template executed
against the variables. If every eligible template parses and executes, the call
returns nil and, in that order, for each eligible row the output of executing
its template (as many strings as there are eligible rows). If a template fails
to parse or to execute with an error e and all templates before it parsed and
executed, the call returns e together with exactly the outputs of the templates
before it. No table is changed. -/
theorem getWelcomeMsgs_spec (tpl : TemplateLib) (eng : Engine) (w : World)
    (vars : Option WelcomeMsgTplVars) (hq : Quiet w) :
    ∃ rows : List WelcomeMsgRow,
      List.Perm rows
        (w.db.welcome_msgs.filter (fun m => m.channel = "line" ∨ m.channel = "both")) ∧
      List.Sorted weightAsc rows ∧
      ((∀ m ∈ rows, ∃ tmpl out, tpl.Parse m.msg = .ok tmpl ∧ tmpl vars = .ok out) →
        (GetWelcomeMsgs tpl eng w vars).1.2 = none ∧
        List.Forall₂ (fun m out => ∃ tmpl, tpl.Parse m.msg = .ok tmpl ∧ tmpl vars = .ok out)
          rows (GetWelcomeMsgs tpl eng w vars).1.1 ∧
        (GetWelcomeMsgs tpl eng w vars).1.1.length
          = (w.db.welcome_msgs.filter (fun m => m.channel = "line" ∨ m.channel = "both")).length) ∧
      (∀ (pre : List WelcomeMsgRow) (m : WelcomeMsgRow) (post : List WelcomeMsgRow) (e : GoError),
        rows = pre ++ m :: post →
        (∀ x ∈ pre, ∃ tmpl out, tpl.Parse x.msg = .ok tmpl ∧ tmpl vars = .ok out) →
        (tpl.Parse m.msg = .error e ∨
          ∃ tmpl, tpl.Parse m.msg = .ok tmpl ∧ tmpl vars = .error e) →
        (GetWelcomeMsgs tpl eng w vars).1.2 = some e ∧
        List.Forall₂ (fun x out => ∃ tmpl, tpl.Parse x.msg = .ok tmpl ∧ tmpl vars = .ok out)
          pre (GetWelcomeMsgs tpl eng w vars).1.1) ∧
      (GetWelcomeMsgs tpl eng w vars).2.db = w.db := by
  obtain ⟨w1, h1, hd1, hq1⟩ := driverCall_of_quiet w hq
  have hperm : List.Perm (List.insertionSort weightAsc
      ((eng.scan w.db.welcome_msgs).filter (fun m => m.channel = "line" ∨ m.channel = "both")))
      (w.db.welcome_msgs.filter (fun m => m.channel = "line" ∨ m.channel = "both")) :=
    (List.perm_insertionSort weightAsc _).trans ((eng.scan_perm w.db.welcome_msgs).filter _)
  have hres : GetWelcomeMsgs tpl eng w vars =
      scanRows (fun msgs msgRaw =>
          match applyWelcomeTpl tpl msgRaw vars with
          | (_, some err) => Except.error err
          | (msg, none) => Except.ok (msgs ++ [msg]))
        ((List.insertionSort weightAsc ((eng.scan w.db.welcome_msgs).filter
          (fun m => m.channel = "line" ∨ m.channel = "both"))).map (fun m => m.msg)) [] w1 := by
    simp only [GetWelcomeMsgs, h1, selectWelcomeMsgs, hd1]
  have hforall : ∀ l : List WelcomeMsgRow,
      (∀ x ∈ l, ∃ tmpl out, tpl.Parse x.msg = .ok tmpl ∧ tmpl vars = .ok out) →
      List.Forall₂ (fun x out => ∃ tmpl, tpl.Parse x.msg = .ok tmpl ∧ tmpl vars = .ok out)
        l (l.map (fun x => (applyWelcomeTpl tpl x.msg vars).1)) := by
    intro l hl
    rw [List.forall₂_map_right_iff, List.forall₂_same]
    intro x hx
    obtain ⟨tmpl, out, hp, he⟩ := hl x hx
    exact ⟨tmpl, hp, by rw [applyWelcomeTpl_of_renders tpl vars x.msg out tmpl hp he]; exact he⟩
  refine ⟨_, hperm, List.sorted_insertionSort weightAsc _, ?_, ?_, ?_⟩
  · intro hall
    have hr := welcomeLoop_all_render tpl vars
      ((List.insertionSort weightAsc ((eng.scan w.db.welcome_msgs).filter
          (fun m => m.channel = "line" ∨ m.channel = "both"))).map (fun m => m.msg)) [] w1 hq1
      (by
        intro s hs
        obtain ⟨m, hm, rfl⟩ := List.mem_map.mp hs
        obtain ⟨tmpl, out, hp, he⟩ := hall m hm
        rw [applyWelcomeTpl_of_renders tpl vars m.msg out tmpl hp he])
    rw [hres, hr]
    simp only [List.nil_append, List.map_map, List.length_map]
    exact ⟨trivial, hforall _ hall, hperm.length_eq⟩
  · intro pre m post e hsplit hpre hm
    have hr := welcomeLoop_first_failure tpl vars m.msg (post.map (fun x => x.msg)) e
      (pre.map (fun x => x.msg)) [] w1 hq1
      (by
        intro s hs
        obtain ⟨x, hx, rfl⟩ := List.mem_map.mp hs
        obtain ⟨tmpl, out, hp, he⟩ := hpre x hx
        rw [applyWelcomeTpl_of_renders tpl vars x.msg out tmpl hp he])
      (by rw [applyWelcomeTpl_of_fails tpl vars m.msg e hm])
    rw [hres, hsplit, List.map_append, List.map_cons, hr]
    simp only [List.nil_append, List.map_map]
    exact ⟨trivial, hforall pre hpre⟩
  · rw [hres, scanRows_db, hd1]

/-- C9 witness: on the small store, with templates of which hello does not parse,
the eligible rows are welcome (weight 1) and hello (weight 2); the call returns the
rendering of welcome and the parse error of hello; the row for the web channel,
of weight 0, is not rendered. -/
theorem getWelcomeMsgs_spec_witness :
    Quiet sampleWorld ∧
    (GetWelcomeMsgs sampleTemplates tableOrder sampleWorld (some ⟨"u1", "example.org"⟩)).1
      = (["welcome u1"], some (.other "template: unexpected token")) ∧
    ∃ rows : List WelcomeMsgRow,
      List.Perm rows
        (sampleWorld.db.welcome_msgs.filter (fun m => m.channel = "line" ∨ m.channel = "both")) ∧
      List.Sorted weightAsc rows :=
  ⟨by decide, by decide,
    (getWelcomeMsgs_spec sampleTemplates tableOrder sampleWorld (some ⟨"u1", "example.org"⟩)
      (by decide)).imp (fun _ h => ⟨h.1, h.2.1⟩)⟩

/-! ## The answer listing -/

theorem mem_leftJoinAnswers_none (ps : List ProfileRow) (as : List AnswerRow) (p : ProfileRow) :
    (p, none) ∈ leftJoinAnswers ps as ↔ p ∈ ps ∧ ∀ a ∈ as, a.userId ≠ p.userId := by
  unfold leftJoinAnswers
  rw [List.mem_flatMap]
  constructor
  · rintro ⟨q, hq, hmem⟩
    rcases hm : as.filter (fun a => decide (a.userId = q.userId)) with _ | ⟨m, ms⟩
    · rw [hm] at hmem
      simp only [List.mem_singleton, Prod.mk.injEq, and_true] at hmem
      subst hmem
      refine ⟨hq, fun a ha hu => ?_⟩
      have : a ∈ as.filter (fun a => decide (a.userId = p.userId)) :=
        List.mem_filter.mpr ⟨ha, by simpa using hu⟩
      rw [hm] at this
      simp at this
    · rw [hm] at hmem
      simp at hmem
  · rintro ⟨hp, hno⟩
    refine ⟨p, hp, ?_⟩
    have hm : as.filter (fun a => decide (a.userId = p.userId)) = [] := by
      rw [List.filter_eq_nil_iff]
      intro a ha
      simpa using hno a ha
    rw [hm]
    simp

theorem mem_leftJoinAnswers_some (ps : List ProfileRow) (as : List AnswerRow) (p : ProfileRow)
    (x : AnswerRow) :
    (p, some x) ∈ leftJoinAnswers ps as ↔ p ∈ ps ∧ x ∈ as ∧ x.userId = p.userId := by
  unfold leftJoinAnswers
  rw [List.mem_flatMap]
  constructor
  · rintro ⟨q, hq, hmem⟩
    rcases hm : as.filter (fun a => decide (a.userId = q.userId)) with _ | ⟨m, ms⟩
    · rw [hm] at hmem
      simp at hmem
    · rw [hm] at hmem
      simp only [List.mem_map, Prod.mk.injEq, Option.some.injEq] at hmem
      obtain ⟨y, hy, rfl, rfl⟩ := hmem
      rw [← hm] at hy
      obtain ⟨hy1, hy2⟩ := List.mem_filter.mp hy
      exact ⟨hq, hy1, by simpa using hy2⟩
  · rintro ⟨hp, hx, hu⟩
    refine ⟨p, hp, ?_⟩
    have hxm : x ∈ as.filter (fun a => decide (a.userId = p.userId)) :=
      List.mem_filter.mpr ⟨hx, by simpa using hu⟩
    rcases hm : as.filter (fun a => decide (a.userId = p.userId)) with _ | ⟨m, ms⟩
    · rw [hm] at hxm
      simp at hxm
    · rw [hm] at hxm ⊢
      simp only [List.mem_map, Prod.mk.injEq, Option.some.injEq, true_and, exists_eq_right]
      exact hxm

theorem sorted_nulls_then_values (l : List (ProfileRow × Option AnswerRow))
    (hs : List.Sorted joinTsAsc l) :
    ∃ pre post, l = pre ++ post ∧ (∀ r ∈ pre, r.2 = none) ∧ (∀ r ∈ post, ∃ x, r.2 = some x) ∧
      List.Sorted (· ≤ ·) (post.map (fun r => (userAnswerDataOf r).Timestamp)) := by
  induction l with
  | nil => exact ⟨[], [], rfl, by simp, by simp, by simp⟩
  | cons r l ih =>
    have hs' := List.sorted_cons.mp hs
    obtain ⟨pre, post, hl, hpre, hpost, hsorted⟩ := ih hs'.2
    rcases r with ⟨p, _ | x⟩
    · refine ⟨(p, none) :: pre, post, by rw [hl]; rfl, ?_, hpost, hsorted⟩
      intro r hr
      rcases List.mem_cons.mp hr with h | h
      · rw [h]
      · exact hpre r h
    · have hall : ∀ s ∈ l, ∃ y, s.2 = some y ∧ x.timestamp ≤ y.timestamp := by
        intro s hsm
        have hrel := hs'.1 s hsm
        rcases s with ⟨q, _ | y⟩
        · simp [joinTsAsc, nullsFirst] at hrel
        · exact ⟨y, rfl, by simpa [joinTsAsc, nullsFirst] using hrel⟩
      have hprenil : pre = [] := by
        cases pre with
        | nil => rfl
        | cons s pre' =>
          have h1 := hpre s (List.mem_cons_self _ _)
          obtain ⟨y, h2, -⟩ := hall s (by rw [hl]; simp)
          rw [h1] at h2
          simp at h2
      subst hprenil
      simp only [List.nil_append] at hl
      subst hl
      refine ⟨[], (p, some x) :: l, rfl, by simp, ?_, ?_⟩
      · intro r hr
        rcases List.mem_cons.mp hr with h | h
        · exact ⟨x, by rw [h]⟩
        · exact hpost r h
      · rw [List.map_cons, List.sorted_cons]
        refine ⟨?_, hsorted⟩
        intro t ht
        obtain ⟨s, hsm, rfl⟩ := List.mem_map.mp ht
        obtain ⟨y, hy, hle⟩ := hall s hsm
        simp [userAnswerDataOf, hy, hle]

theorem filter_leftJoin_null (as : List AnswerRow) (ps : List ProfileRow) :
    (leftJoinAnswers ps as).filter (fun r => decide (r.2 = none)) =
      (ps.filter (fun p => decide (∀ a ∈ as, a.userId ≠ p.userId))).map (fun p => (p, none)) := by
  induction ps with
  | nil => rfl
  | cons p ps ih =>
    rcases hm : as.filter (fun a => decide (a.userId = p.userId)) with _ | ⟨m, ms⟩
    · have hcons : leftJoinAnswers (p :: ps) as = [(p, none)] ++ leftJoinAnswers ps as := by
        simp [leftJoinAnswers, List.flatMap_cons, hm]
      have hall : ∀ a ∈ as, a.userId ≠ p.userId := by
        intro a ha hu
        have : a ∈ as.filter (fun a => decide (a.userId = p.userId)) :=
          List.mem_filter.mpr ⟨ha, by simpa using hu⟩
        rw [hm] at this
        simp at this
      rw [hcons, List.filter_append, ih]
      simp only [List.filter_cons, List.filter_nil, decide_eq_true_eq]
      rw [if_pos trivial, if_pos hall]
      rfl
    · have hcons : leftJoinAnswers (p :: ps) as =
          (m :: ms).map (fun a => (p, some a)) ++ leftJoinAnswers ps as := by
        simp [leftJoinAnswers, List.flatMap_cons, hm]
      have hmm : m ∈ as.filter (fun a => decide (a.userId = p.userId)) := by
        rw [hm]; exact List.mem_cons_self _ _
      have hmu := List.mem_filter.mp hmm
      have hblock : ((m :: ms).map (fun a => (p, some a))).filter
          (fun r => decide (r.2 = none)) = [] := by
        rw [List.filter_eq_nil_iff]
        intro r hr
        obtain ⟨a, -, rfl⟩ := List.mem_map.mp hr
        simp
      rw [hcons, List.filter_append, ih, hblock]
      simp only [List.filter_cons, decide_eq_true_eq]
      rw [if_neg (fun h => h m hmu.1 (by simpa using hmu.2))]
      rfl

theorem filter_leftJoin_matched (as : List AnswerRow) (ps : List ProfileRow) :
    (leftJoinAnswers ps as).filter (fun r => decide (r.2 ≠ none)) =
      ps.flatMap (fun p =>
        (as.filter (fun a => decide (a.userId = p.userId))).map (fun a => (p, some a))) := by
  induction ps with
  | nil => rfl
  | cons p ps ih =>
    rw [List.flatMap_cons, ← ih]
    rcases hm : as.filter (fun a => decide (a.userId = p.userId)) with _ | ⟨m, ms⟩
    · have hcons : leftJoinAnswers (p :: ps) as = [(p, none)] ++ leftJoinAnswers ps as := by
        simp [leftJoinAnswers, List.flatMap_cons, hm]
      rw [hcons, List.filter_append, hm]
      simp
    · have hcons : leftJoinAnswers (p :: ps) as =
          (m :: ms).map (fun a => (p, some a)) ++ leftJoinAnswers ps as := by
        simp [leftJoinAnswers, List.flatMap_cons, hm]
      have hblock : ((m :: ms).map (fun a => (p, some a))).filter
          (fun r => decide (r.2 ≠ none)) = (m :: ms).map (fun a => (p, some a)) := by
        rw [List.filter_eq_self]
        intro r hr
        obtain ⟨a, -, rfl⟩ := List.mem_map.mp hr
        simp
      rw [hcons, List.filter_append, hblock, hm]

theorem filter_nulls_of_split (l pre post : List (ProfileRow × Option AnswerRow))
    (hl : l = pre ++ post) (hpre : ∀ r ∈ pre, r.2 = none)
    (hpost : ∀ r ∈ post, ∃ x, r.2 = some x) :
    l.filter (fun r => decide (r.2 = none)) = pre ∧
    l.filter (fun r => decide (r.2 ≠ none)) = post := by
  have h1 : pre.filter (fun r => decide (r.2 = none)) = pre := by
    rw [List.filter_eq_self]
    intro r hr
    simpa using hpre r hr
  have h2 : post.filter (fun r => decide (r.2 = none)) = [] := by
    rw [List.filter_eq_nil_iff]
    intro r hr
    obtain ⟨x, hx⟩ := hpost r hr
    simp [hx]
  have h3 : pre.filter (fun r => decide (r.2 ≠ none)) = [] := by
    rw [List.filter_eq_nil_iff]
    intro r hr
    simp [hpre r hr]
  have h4 : post.filter (fun r => decide (r.2 ≠ none)) = post := by
    rw [List.filter_eq_self]
    intro r hr
    obtain ⟨x, hx⟩ := hpost r hr
    simp [hx]
  rw [hl, List.filter_append, List.filter_append, h1, h2, h3, h4]
  simp

theorem pairwise_le_of_all_zero (l : List Int) (h : ∀ t ∈ l, t = 0) :
    List.Pairwise (· ≤ ·) l := by
  induction l with
  | nil => exact List.Pairwise.nil
  | cons t l ih =>
    refine List.Pairwise.cons ?_ (ih (fun s hs => h s (List.mem_cons_of_mem _ hs)))
    intro s hs
    rw [h t (List.mem_cons_self _ _), h s (List.mem_cons_of_mem _ hs)]

theorem getUserAnswerData_ok (eng : Engine) (w : World)
    (hget : (GetUserAnswerData eng w).1.2 = none) :
    (GetUserAnswerData eng w).1.1 =
      (List.insertionSort joinTsAsc
        (eng.scan (leftJoinAnswers w.db.user_profiles w.db.answers))).map userAnswerDataOf := by
  have hd := driverCall_db w
  rcases hc : driverCall w with ⟨_ | e, w1⟩
  swap
  · simp [GetUserAnswerData, hc] at hget
  rw [hc] at hd
  simp only at hd
  have hres : GetUserAnswerData eng w =
      scanRows (fun (xs : List UserAnswerData) (r : String × String × String × String × Int) =>
          Except.ok (xs ++ [(fun t : String × String × String × String × Int =>
            (⟨0, t.1, t.2.1, t.2.2.1, t.2.2.2.1, t.2.2.2.2⟩ : UserAnswerData)) r]))
        (selectUserAnswerData eng w.db) [] w1 := by
    simp [GetUserAnswerData, hc, hd]
  rw [hres] at hget ⊢
  rw [scanRows_collect _ _ [] w1 hget]
  simp only [List.nil_append, selectUserAnswerData, List.map_map]
  rfl

/-- C8 (as stated, refuted): with the profiles of u1 and u2 in the store and no
answer yet, UserAddAnswer for u2 at the clock reading 2147483648 (2^31) succeeds
and stores the timestamp -2147483648; GetUserAnswerData then returns the row of
u1 (no answer, timestamp 0) followed by the row of u2, so the returned timestamps
0, -2147483648 are not in non-decreasing order, whatever the row order of the
engine. -/
theorem getUserAnswerData_timestamps_decrease :
    (UserAddAnswer twoProfilesWorld 2147483648 ⟨0, "u2", "q1", "yes", "line", 0⟩).1 = none ∧
    (GetUserAnswerData tableOrder
      (UserAddAnswer twoProfilesWorld 2147483648 ⟨0, "u2", "q1", "yes", "line", 0⟩).2).1
      = ([⟨0, "u1", "", "", "", 0⟩, ⟨0, "u2", "q1", "yes", "line", -2147483648⟩], none) ∧
    (GetUserAnswerData reverseOrder
      (UserAddAnswer twoProfilesWorld 2147483648 ⟨0, "u2", "q1", "yes", "line", 0⟩).2).1
      = ([⟨0, "u1", "", "", "", 0⟩, ⟨0, "u2", "q1", "yes", "line", -2147483648⟩], none) ∧
    ¬ List.Sorted (· ≤ ·) ((GetUserAnswerData tableOrder
      (UserAddAnswer twoProfilesWorld 2147483648 ⟨0, "u2", "q1", "yes", "line", 0⟩).2).1.1.map
        (fun r => r.Timestamp)) := by
  refine ⟨by decide, by decide, by decide, ?_⟩
  have h : (GetUserAnswerData tableOrder
      (UserAddAnswer twoProfilesWorld 2147483648 ⟨0, "u2", "q1", "yes", "line", 0⟩).2).1.1
      = [⟨0, "u1", "", "", "", 0⟩, ⟨0, "u2", "q1", "yes", "line", -2147483648⟩] := by decide
  rw [h]
  simp [List.Sorted]

/-- C8 (amended): in a store with a profile for a.userId, after a successful
UserAddAnswer(a) a successful GetUserAnswerData() contains a row whose userId,
questionId, answer and channel are those of a and whose timestamp is the
int32(now) assigned at insert time. The returned sequence lists first the rows of
profiles that have no answer, one for each such profile and no other, with empty
questionId/answer/channel and timestamp 0, and then the answer rows, one for each
pair of a profile and an answer of its userId and no other, in non-decreasing
order of their stored timestamps; the timestamps of the whole sequence are
non-decreasing when no stored answer timestamp is negative. -/
theorem getUserAnswerData_roundtrip (eng : Engine) (w : World) (now : Int) (a : Answer)
    (w2 : World) (hprof : ∃ p ∈ w.db.user_profiles, p.userId = a.UserId)
    (hadd : (UserAddAnswer w now a).1 = none)
    (h2 : w2.db = (UserAddAnswer w now a).2.db)
    (hget : (GetUserAnswerData eng w2).1.2 = none) :
    (⟨0, a.UserId, a.QuestionId, a.Answer, a.Channel, int32 now⟩ : UserAnswerData)
      ∈ (GetUserAnswerData eng w2).1.1 ∧
    (∃ pre post, (GetUserAnswerData eng w2).1.1 = pre ++ post ∧
      List.Perm pre
        ((w2.db.user_profiles.filter (fun p => ∀ x ∈ w2.db.answers, x.userId ≠ p.userId)).map
          (fun p => (⟨0, p.userId, "", "", "", 0⟩ : UserAnswerData))) ∧
      List.Perm post
        (w2.db.user_profiles.flatMap (fun p =>
          (w2.db.answers.filter (fun x => x.userId = p.userId)).map
            (fun x => (⟨0, p.userId, x.questionId, x.answer, x.channel, x.timestamp⟩ :
              UserAnswerData)))) ∧
      (∀ r ∈ pre, r.QuestionId = "" ∧ r.Answer = "" ∧ r.Channel = "" ∧ r.Timestamp = 0 ∧
        (∃ p ∈ w2.db.user_profiles, p.userId = r.UserId) ∧
        ∀ x ∈ w2.db.answers, x.userId ≠ r.UserId) ∧
      (∀ r ∈ post, ∃ x ∈ w2.db.answers,
        r = ⟨0, x.userId, x.questionId, x.answer, x.channel, x.timestamp⟩) ∧
      List.Sorted (· ≤ ·) (post.map (fun r => r.Timestamp))) ∧
    ((∀ x ∈ w2.db.answers, 0 ≤ x.timestamp) →
      List.Sorted (· ≤ ·) ((GetUserAnswerData eng w2).1.1.map (fun r => r.Timestamp))) := by
  have hdb := UserAddAnswer_ok w now a hadd
  rw [hdb] at h2
  have hmemL : ∀ r, r ∈ List.insertionSort joinTsAsc
      (eng.scan (leftJoinAnswers w2.db.user_profiles w2.db.answers)) ↔
      r ∈ leftJoinAnswers w2.db.user_profiles w2.db.answers := by
    intro r
    rw [List.mem_insertionSort, (eng.scan_perm _).mem_iff]
  obtain ⟨pre, post, hsplit, hpre, hpost, hsorted⟩ := sorted_nulls_then_values _
    (List.sorted_insertionSort joinTsAsc
      (eng.scan (leftJoinAnswers w2.db.user_profiles w2.db.answers)))
  have hpostrows : ∀ r ∈ post.map userAnswerDataOf, ∃ x ∈ w2.db.answers,
      r = ⟨0, x.userId, x.questionId, x.answer, x.channel, x.timestamp⟩ := by
    intro r hr
    obtain ⟨s, hs, rfl⟩ := List.mem_map.mp hr
    obtain ⟨x, hx⟩ := hpost s hs
    rcases s with ⟨p, o⟩
    simp only at hx
    subst hx
    have hin := (hmemL (p, some x)).1 (by rw [hsplit]; exact List.mem_append_right _ hs)
    obtain ⟨-, hxa, hxu⟩ := (mem_leftJoinAnswers_some _ _ p x).1 hin
    exact ⟨x, hxa, by simp [userAnswerDataOf, hxu]⟩
  have hprerows : ∀ r ∈ pre.map userAnswerDataOf,
      r.QuestionId = "" ∧ r.Answer = "" ∧ r.Channel = "" ∧ r.Timestamp = 0 ∧
      (∃ p ∈ w2.db.user_profiles, p.userId = r.UserId) ∧
      ∀ x ∈ w2.db.answers, x.userId ≠ r.UserId := by
    intro r hr
    obtain ⟨s, hs, rfl⟩ := List.mem_map.mp hr
    have hx := hpre s hs
    rcases s with ⟨p, o⟩
    simp only at hx
    subst hx
    have hin := (hmemL (p, none)).1 (by rw [hsplit]; exact List.mem_append_left _ hs)
    obtain ⟨hp, hno⟩ := (mem_leftJoinAnswers_none _ _ p).1 hin
    exact ⟨rfl, rfl, rfl, rfl, ⟨p, hp, rfl⟩, hno⟩
  have hpermL : List.Perm (List.insertionSort joinTsAsc
      (eng.scan (leftJoinAnswers w2.db.user_profiles w2.db.answers)))
      (leftJoinAnswers w2.db.user_profiles w2.db.answers) :=
    (List.perm_insertionSort joinTsAsc _).trans (eng.scan_perm _)
  obtain ⟨hf1, hf2⟩ := filter_nulls_of_split _ pre post hsplit hpre hpost
  have hprePerm : List.Perm (pre.map userAnswerDataOf)
      ((w2.db.user_profiles.filter (fun p => ∀ x ∈ w2.db.answers, x.userId ≠ p.userId)).map
        (fun p => (⟨0, p.userId, "", "", "", 0⟩ : UserAnswerData))) := by
    have h := (hpermL.filter (fun r => decide (r.2 = none))).map userAnswerDataOf
    rw [hf1, filter_leftJoin_null, List.map_map] at h
    exact h
  have hpostPerm : List.Perm (post.map userAnswerDataOf)
      (w2.db.user_profiles.flatMap (fun p =>
        (w2.db.answers.filter (fun x => x.userId = p.userId)).map
          (fun x => (⟨0, p.userId, x.questionId, x.answer, x.channel, x.timestamp⟩ :
            UserAnswerData)))) := by
    have h := (hpermL.filter (fun r => decide (r.2 ≠ none))).map userAnswerDataOf
    rw [hf2, filter_leftJoin_matched, List.map_flatMap] at h
    simp only [List.map_map] at h
    exact h
  rw [getUserAnswerData_ok eng w2 hget, hsplit, List.map_append]
  refine ⟨?_, ⟨_, _, rfl, hprePerm, hpostPerm, hprerows, hpostrows, ?_⟩, ?_⟩
  · obtain ⟨p, hp, hpu⟩ := hprof
    have hin : (p, some (⟨nextId (w.db.answers.map (fun x => x.id)), a.UserId, a.QuestionId,
        a.Answer, a.Channel, int32 now⟩ : AnswerRow)) ∈
        leftJoinAnswers w2.db.user_profiles w2.db.answers := by
      rw [mem_leftJoinAnswers_some, h2]
      exact ⟨hp, by simp, hpu.symm⟩
    have hL := (hmemL _).2 hin
    rw [hsplit] at hL
    have := List.mem_map_of_mem userAnswerDataOf hL
    rw [List.map_append] at this
    simpa [userAnswerDataOf, hpu] using this
  · rw [List.map_map]
    exact hsorted
  · intro hnn
    rw [List.map_append]
    refine List.pairwise_append.mpr ⟨?_, ?_, ?_⟩
    · refine pairwise_le_of_all_zero _ ?_
      intro t ht
      obtain ⟨r, hr, rfl⟩ := List.mem_map.mp ht
      exact (hprerows r hr).2.2.2.1
    · rw [List.map_map]
      exact hsorted
    · intro t1 ht1 t2 ht2
      obtain ⟨r1, hr1, rfl⟩ := List.mem_map.mp ht1
      obtain ⟨r2, hr2, rfl⟩ := List.mem_map.mp ht2
      obtain ⟨-, -, -, h0, -, -⟩ := hprerows r1 hr1
      obtain ⟨x, hx, rfl⟩ := hpostrows r2 hr2
      rw [h0]
      exact hnn x hx

/-- C8 witness: the amended statement at the store with the profiles of u1 and u2,
for the answer (u2, q1, yes, line) written at the clock reading 100. -/
theorem getUserAnswerData_roundtrip_witness :
    (GetUserAnswerData tableOrder
      (UserAddAnswer twoProfilesWorld 100 ⟨0, "u2", "q1", "yes", "line", 0⟩).2).1.1
      = [⟨0, "u1", "", "", "", 0⟩, ⟨0, "u2", "q1", "yes", "line", 100⟩] ∧
    (⟨0, "u2", "q1", "yes", "line", 100⟩ : UserAnswerData) ∈
      (GetUserAnswerData tableOrder
        (UserAddAnswer twoProfilesWorld 100 ⟨0, "u2", "q1", "yes", "line", 0⟩).2).1.1 ∧
    List.Sorted (· ≤ ·) ((GetUserAnswerData tableOrder
      (UserAddAnswer twoProfilesWorld 100 ⟨0, "u2", "q1", "yes", "line", 0⟩).2).1.1.map
        (fun r => r.Timestamp)) :=
  ⟨by decide,
    (getUserAnswerData_roundtrip tableOrder twoProfilesWorld 100 ⟨0, "u2", "q1", "yes", "line", 0⟩
      (UserAddAnswer twoProfilesWorld 100 ⟨0, "u2", "q1", "yes", "line", 0⟩).2
      (by decide) (by decide) rfl (by decide)).1,
    (getUserAnswerData_roundtrip tableOrder twoProfilesWorld 100 ⟨0, "u2", "q1", "yes", "line", 0⟩
      (UserAddAnswer twoProfilesWorld 100 ⟨0, "u2", "q1", "yes", "line", 0⟩).2
      (by decide) (by decide) rfl (by decide)).2.2 (by decide)⟩


end Storage
